import Mathlib

/-!
Verification development for the aptra-automation repository
(src/backend/server.js). The source file contains two server variants:

* Variant 1 ("V1", the puppeteer server): endpoints /api/upload-excel,
  /api/start-processing, /api/stop-processing, /api/processing-status,
  together with function processRecords and class NCRAtleosAutomation.
* Variant 2 ("V2", the simulated server): endpoints /api/upload,
  /api/process, /api/stop, /api/status, together with function
  simulateAptraProcessing.

Shallow embedding conventions used below:

* JavaScript objects become structures; statuses are kept as the exact
  string values the source writes ("pending", "completed", "error",
  "failed").
* Record references (`currentProcessing.currentRecord = record`) are
  modelled as indices into the session record list.
* The async batch runners are modelled as small-step machines: one step
  is one atomic segment of code between two `await` suspension points.
  Between steps the process can service other requests (stop, status),
  so the states of a step sequence are exactly the observation points.
* External driver outcomes (browser login, ATM search, incident
  creation, `Math.random` in the simulated variant) are parameters
  ("oracles"); timer durations are irrelevant to state and not modelled.
* `addLog` timestamps come from the wall clock; entries are modelled
  without the timestamp field, which no property depends on.
-/

/-- Log entry as pushed by both `addLog` functions: a message and a
severity tag. The wall-clock timestamp field is omitted. -/
structure LogEntry where
  message : String
  severity : String
deriving Repr, DecidableEq

/-- Variant 1 `addLog` (server.js lines 54-62): pushes onto the session
log array. No capacity bound is applied to the stored array. -/
def addLogV1 (logs : List LogEntry) (e : LogEntry) : List LogEntry :=
  logs ++ [e]

/-- Variant 2 `addLog` (simulated server, lines 545-555): pushes the
entry, then if the array length exceeds 100 keeps only the last 100
entries (`logs.slice(-100)`). -/
def addLogV2 (logs : List LogEntry) (e : LogEntry) : List LogEntry :=
  let l := logs ++ [e]
  if 100 < l.length then l.drop (l.length - 100) else l

/-- Ordered-fallback locator loop shared by `fillField`, `saveIncident`
and the create-button search in `createIncident`: try each candidate
selector in list order; the first one the page resolves (`avail`) wins
and the loop returns; later candidates are never attempted. Returns the
winning selector (or `none` when all candidates are exhausted) together
with the list of selectors that were attempted, in order. -/
def tryInOrder (candidates : List String) (avail : String → Bool) :
    Option String × List String :=
  match candidates with
  | [] => (none, [])
  | c :: rest =>
    if avail c then (some c, [c])
    else
      let r := tryInOrder rest avail
      (r.fst, c :: r.snd)

/-- JavaScript `str.replace(' ', '')` with a string pattern replaces only
the first occurrence. -/
def replaceFirstSpace (s : String) : String :=
  match s.splitOn " " with
  | [] => s
  | a :: rest =>
    match rest with
    | [] => a
    | b :: more => a ++ b ++ (more.map (fun x => " " ++ x)).foldl (· ++ ·) ""

/-- Candidate selector list built by `fillField` (lines 219-230) from a
logical field name: name-attribute matches on input/textarea/select,
a placeholder match, then label-adjacency matches. -/
def fieldSelectors (fieldName : String) : List String :=
  let low := replaceFirstSpace fieldName.toLower
  [ s!"input[name*=\"{low}\"]",
    s!"textarea[name*=\"{low}\"]",
    s!"select[name*=\"{low}\"]",
    s!"input[placeholder*=\"{fieldName}\"]",
    s!"label:contains(\"{fieldName}\") + input",
    s!"label:contains(\"{fieldName}\") + textarea",
    s!"label:contains(\"{fieldName}\") + select" ]

/-- Warning message logged by `fillField` when every candidate selector
for a field is exhausted (line 256). -/
def fieldWarning (fieldName : String) : String :=
  s!"Advertencia: No se pudo encontrar el campo \"{fieldName}\""

/-- Info message logged by `fillField` on success (line 249). -/
def fieldFilledMsg (fieldName value : String) : String :=
  s!"Campo \"{fieldName}\" llenado con: {value}"

/-- `fillField` (lines 219-260): resolve the field through the ordered
candidate list; on success set the value and log at info severity; when
every candidate is exhausted log a warning naming the field and return
normally — the failure is swallowed, never thrown. Result: whether the
field was found, plus the emitted log entries. -/
def fillField (avail : String → Bool) (fieldName value : String) :
    Bool × List LogEntry :=
  match (tryInOrder (fieldSelectors fieldName) avail).fst with
  | some _ => (true, [⟨fieldFilledMsg fieldName value, "info"⟩])
  | none => (false, [⟨fieldWarning fieldName, "warning"⟩])

/-- Locale date formatting done by `fillDateField` (lines 262-281) is an
external concern of the date library; it is represented as an
uninterpreted passthrough of the source string, which no claim depends
on. -/
def formatDateTime (dateString : String) : String :=
  dateString

/-- Variant 1 record as built by the /api/upload-excel handler
(lines 336-344). -/
structure Rec1 where
  id : Nat
  tipo : String
  idNCR : String
  startDate : String
  endDate : String
  comentario : String
  status : String
  error : Option String
deriving Repr, DecidableEq

/-- Status-code mapping of `fillIncidentForm` (lines 191-197):
`statusCodeMap[record.tipo] || 'VANDG Vandalismo en ATM - Grave'`. -/
def statusCodeFor (tipo : String) : String :=
  if tipo = "VANDG" then "VANDG Vandalismo en ATM - Grave"
  else if tipo = "GENERAR" then "Otro código según sea necesario"
  else "VANDG Vandalismo en ATM - Grave"

/-- Fixed field sequence attempted by `fillIncidentForm` (lines 188-217):
Status Code, Start Date, End Date, Shared Comment only when the record
carries a comment, then the constant Action Code. Each element is a
(field name, value) pair handed to `fillField`. -/
def formFields (record : Rec1) : List (String × String) :=
  [("Status Code", statusCodeFor record.tipo),
   ("Start Date", formatDateTime record.startDate),
   ("End Date", formatDateTime record.endDate)] ++
  (if record.comentario ≠ "" then
    [("Shared Comment", record.comentario)] else []) ++
  [("Action Code", "25 Vandalism - Manual Close")]

/-- Run `fillField` over a field sequence in order, collecting per-field
found flags and the concatenated logs. Mirrors the straight-line calls
inside `fillIncidentForm`: a missing field never stops the sequence. -/
def fillFields (avail : String → Bool) :
    List (String × String) → List (String × Bool) × List LogEntry
  | [] => ([], [])
  | (name, value) :: rest =>
    let r := fillField avail name value
    let rec' := fillFields avail rest
    ((name, r.fst) :: rec'.fst, r.snd ++ rec'.snd)

/-- `fillIncidentForm` (lines 188-217): fill the fixed field sequence;
per-field failures are absorbed by `fillField`, so the form fill itself
always runs to the end of the sequence. -/
def fillIncidentForm (avail : String → Bool) (record : Rec1) :
    List (String × Bool) × List LogEntry :=
  fillFields avail (formFields record)

/-- Save-button candidates of `saveIncident` (lines 286-291). -/
def saveSelectors : List String :=
  [ "button:contains(\"Save\")",
    "button:contains(\"SAVE\")",
    "input[type=\"submit\"]:contains(\"Save\")",
    ".btn:contains(\"Save\")" ]

/-- `saveIncident` (lines 283-310): ordered fallback over the save-button
candidates; when none resolves the function throws (a hard failure for
the record), otherwise it clicks and logs success. Result: whether the
save succeeded, plus emitted logs. -/
def saveIncident (avail : String → Bool) : Bool × List LogEntry :=
  match (tryInOrder saveSelectors avail).fst with
  | some _ => (true, [⟨"Incidente guardado", "info"⟩])
  | none =>
    (false,
     [⟨"Error guardando incidente: No se encontró el botón de guardar",
       "error"⟩])

/-- Create-button candidates of `createIncident` (lines 147-153). -/
def createButtonSelectors : List String :=
  [ "button:contains(\"Create\")",
    "a:contains(\"Create\")",
    ".btn:contains(\"Create\")",
    "button:contains(\"New\")",
    "a:contains(\"New\")" ]

/-- `createIncident` (lines 142-186): find a create button through the
ordered fallback (absence throws, caught into a `false` result), fill
the form (never a hard failure), then save (absence of a save button
throws, caught into a `false` result). Result: overall success flag and
the emitted logs. -/
def createIncident (avail : String → Bool) (record : Rec1) :
    Bool × List LogEntry :=
  match (tryInOrder createButtonSelectors avail).fst with
  | none =>
    (false,
     [⟨"Error creando incidente: No se encontró el botón para crear incidente",
       "error"⟩])
  | some _ =>
    let form := fillIncidentForm avail record
    let save := saveIncident avail
    if save.fst then
      (true, form.snd ++ save.snd)
    else
      (false, form.snd ++ save.snd ++
        [⟨"Error creando incidente: No se encontró el botón de guardar",
          "error"⟩])

/-- Raw spreadsheet row for variant 1 as produced by
`XLSX.utils.sheet_to_json`: a cell may be absent. -/
structure Row1 where
  generar : Option String
  vandg : Option String
  idNCR : Option String
  startDate : Option String
  endDate : Option String
  comentario : Option String
deriving Repr, DecidableEq

/-- JavaScript `String.prototype.trim`, modelled executably over the
character list (the library `String.trim` is defined by well-founded
recursion on byte positions, which a shallow embedding cannot
evaluate): drop whitespace from both ends. -/
def jsTrim (s : String) : String :=
  ⟨((s.data.dropWhile Char.isWhitespace).reverse.dropWhile
      Char.isWhitespace).reverse⟩

/-- JavaScript `x || d` over an optional string cell: an absent cell and
the empty string are both falsy and yield the default. -/
def jsOrStr (o : Option String) (d : String) : String :=
  match o with
  | none => d
  | some s => if s = "" then d else s

/-- Record built from one row by the /api/upload-excel map callback
(lines 336-343); `index` is the 0-based map index, stored 1-based. -/
def recOfRow (index : Nat) (row : Row1) : Rec1 :=
  { id := index + 1,
    tipo := jsOrStr row.generar (jsOrStr row.vandg "VANDG"),
    idNCR := jsOrStr row.idNCR "",
    startDate := jsOrStr row.startDate "",
    endDate := jsOrStr row.endDate "",
    comentario := jsOrStr row.comentario "",
    status := "pending",
    error := none }

/-- The `data.map((row, index) => ...)` part of the upload handler,
carrying the running 0-based index. -/
def mapRowsFrom (index : Nat) : List Row1 → List Rec1
  | [] => []
  | row :: rest => recOfRow index row :: mapRowsFrom (index + 1) rest

/-- Variant 1 /api/upload-excel record construction (lines 336-344):
map every sheet row to a record with a 1-based `id` taken from the map
index, then filter out records with a falsy (empty) `idNCR`. The filter
runs after the ids were assigned. -/
def uploadExcelRecords (rows : List Row1) : List Rec1 :=
  (mapRowsFrom 0 rows).filter (fun r => r.idNCR ≠ "")

/-- Variant 2 record as built by the /api/upload handler
(lines 642-649); cells addressed positionally. -/
structure Rec2 where
  id : Nat
  action : String
  ncrId : String
  startDate : String
  endDate : String
  comment : String
  status : String
  result : Option String
deriving Repr, DecidableEq

/-- Raw positional row for variant 2 (`header: 1` parsing):
row[0] .. row[4], any of which may be absent. -/
structure Row2 where
  c0 : Option String
  c1 : Option String
  c2 : Option String
  c3 : Option String
  c4 : Option String
deriving Repr, DecidableEq

/-- Record built from one positional row by the /api/upload map callback
(lines 642-649). -/
def rec2OfRow (index : Nat) (row : Row2) : Rec2 :=
  { id := index + 1,
    action := jsOrStr row.c0 "",
    ncrId := jsOrStr row.c1 "",
    startDate := jsOrStr row.c2 "",
    endDate := jsOrStr row.c3 "",
    comment := jsOrStr row.c4 "",
    status := "pending",
    result := none }

/-- The map part of the variant 2 upload handler (0-based running
index, stored 1-based). -/
def mapRows2From (index : Nat) : List Row2 → List Rec2
  | [] => []
  | row :: rest => rec2OfRow index row :: mapRows2From (index + 1) rest

/-- Variant 2 /api/upload record construction (lines 642-650): the header
row is already stripped (`jsonData.slice(1)` is the caller's business);
map rows to records with ids from the map index, then filter out records
whose `ncrId` is falsy or whitespace-only
(`record.ncrId && record.ncrId.trim() !== ''`). -/
def uploadRecords2 (rows : List Row2) : List Rec2 :=
  (mapRows2From 0 rows).filter
    (fun r => r.ncrId ≠ "" ∧ jsTrim r.ncrId ≠ "")

/-- Variant 1 session: the global `currentProcessing` object
(lines 44-51). `currentRecord` holds a reference to the record being
worked on, modelled as its index into `records`. -/
structure Sess1 where
  isProcessing : Bool
  currentRecord : Option Nat
  totalRecords : Nat
  processedRecords : Nat
  logs : List LogEntry
  records : List Rec1
deriving Repr, DecidableEq

/-- Append a log entry to a variant 1 session via `addLogV1`. -/
def addLog1 (s : Sess1) (message severity : String) : Sess1 :=
  { s with logs := addLogV1 s.logs ⟨message, severity⟩ }

/-- Variant 1 runner configuration: `config.delay` in milliseconds;
`0` models an absent/falsy delay. -/
structure Config1 where
  delay : Nat
deriving Repr, DecidableEq

/-- Driver outcomes for a variant 1 run: whether `login` succeeds, and
per record index whether `searchAndSelectATM` and `createIncident`
succeed. Browser launch is modelled as succeeding; driver failures
surface through `loginOk`. -/
structure Oracle1 where
  loginOk : Bool
  searchOk : Nat → Bool
  createOk : Nat → Bool

/-- Program counter of the `processRecords` step machine: each value
names the await suspension point the runner is parked at. -/
inductive PC1 where
  | start
  | loopHead (i : Nat)
  | afterSearch (i : Nat)
  | afterCreate (i : Nat)
  | afterDelay (i : Nat)
  | cleanup
  | finalizeRun
  | done
deriving Repr, DecidableEq

/-- Full state of a variant 1 run: runner position, the shared session,
how many times the browser resource was released, and whether the
browser is currently open. -/
structure State1 where
  pc : PC1
  sess : Sess1
  closeCalls : Nat
  browserOpen : Bool
deriving Repr, DecidableEq

/-- Set `records[i].status` (used for the `completed` assignment, which
leaves `error` untouched). -/
def setStatus1 (recs : List Rec1) (i : Nat) (st : String) : List Rec1 :=
  match recs.get? i with
  | some r => recs.set i { r with status := st }
  | none => recs

/-- Set `records[i].status` and `records[i].error` together (the failure
assignments). -/
def setStatusErr1 (recs : List Rec1) (i : Nat) (st err : String) :
    List Rec1 :=
  match recs.get? i with
  | some r => recs.set i { r with status := st, error := some err }
  | none => recs

/-- One atomic segment of `processRecords` (lines 401-461), from one
await suspension point to the next.

* `start`: `initialize()` opens the browser, `login()` resolves through
  the oracle; failure throws into the catch and proceeds to the finally
  block (`cleanup`), success enters the loop.
* `loopHead i`: the `for` condition `i < records.length`; inside the
  loop the current record reference is set and its progress line logged
  before the search awaits; on exit the completion line is logged and
  control falls to the finally block.
* `afterSearch i`: resumes with the search result; a failed search marks
  the record terminal with the not-found reason and `continue`s — which
  skips both the delay and the `processedRecords++` at the loop end.
* `afterCreate i`: resumes with the creation result and marks the record
  terminal; then, exactly as coded, when a truthy delay is configured
  and the record is not the last, the runner parks on the delay await,
  otherwise `processedRecords++` runs and the loop advances.
* `afterDelay i`: resumes from the delay; `processedRecords++`, advance.
* `cleanup`: `automation.close()` awaits, releasing the browser when
  open; `finalizeRun` then runs the two assignments of the finally
  block. Driver-internal log lines are collapsed into the segment that
  issues them. -/
def step1 (cfg : Config1) (orc : Oracle1) (s : State1) : State1 :=
  match s.pc with
  | PC1.start =>
    let sess := addLog1 s.sess "Iniciando navegador..." "info"
    let sess := addLog1 sess "Navegando a NCR Atleos..." "info"
    let sess := addLog1 sess "Introduciendo credenciales..." "info"
    if orc.loginOk then
      let sess := addLog1 sess "Login exitoso" "success"
      { s with pc := PC1.loopHead 0, sess := sess, browserOpen := true }
    else
      let sess := addLog1 sess "Error en login" "error"
      let sess :=
        addLog1 sess "Error fatal en procesamiento: Error en el login" "error"
      { s with pc := PC1.cleanup, sess := sess, browserOpen := true }
  | PC1.loopHead i =>
    if i < s.sess.records.length then
      let sess := { s.sess with currentRecord := some i }
      let sess :=
        addLog1 sess
          s!"Procesando registro {i + 1}/{sess.totalRecords}" "info"
      { s with pc := PC1.afterSearch i, sess := sess }
    else
      let sess := addLog1 s.sess "🎉 Procesamiento completado" "success"
      { s with pc := PC1.cleanup, sess := sess }
  | PC1.afterSearch i =>
    if orc.searchOk i then
      { s with pc := PC1.afterCreate i }
    else
      let sess :=
        { s.sess with
          records :=
            setStatusErr1 s.sess.records i "error"
              "No se pudo encontrar el ATM" }
      { s with pc := PC1.loopHead (i + 1), sess := sess }
  | PC1.afterCreate i =>
    let sess :=
      if orc.createOk i then
        let s2 :=
          { s.sess with records := setStatus1 s.sess.records i "completed" }
        addLog1 s2 "✅ Registro procesado exitosamente" "success"
      else
        { s.sess with
          records :=
            setStatusErr1 s.sess.records i "error" "Error creando incidente" }
    if cfg.delay ≠ 0 ∧ i < s.sess.records.length - 1 then
      let sess :=
        addLog1 sess
          s!"Esperando {cfg.delay}ms antes del siguiente registro..." "info"
      { s with pc := PC1.afterDelay i, sess := sess }
    else
      { s with pc := PC1.loopHead (i + 1),
               sess :=
                 { sess with processedRecords := sess.processedRecords + 1 } }
  | PC1.afterDelay i =>
    { s with pc := PC1.loopHead (i + 1),
             sess :=
               { s.sess with
                 processedRecords := s.sess.processedRecords + 1 } }
  | PC1.cleanup =>
    let sess :=
      if s.browserOpen then addLog1 s.sess "Navegador cerrado" "info"
      else s.sess
    { s with pc := PC1.finalizeRun,
             closeCalls := s.closeCalls + (if s.browserOpen then 1 else 0),
             browserOpen := false,
             sess := sess }
  | PC1.finalizeRun =>
    { s with pc := PC1.done,
             sess :=
               { s.sess with isProcessing := false, currentRecord := none } }
  | PC1.done => s

/-- Credentials of a start request; an absent object or empty fields are
falsy. -/
structure Credentials where
  username : String
  password : String
deriving Repr, DecidableEq

/-- The handler truth test `credentials && credentials.username &&
credentials.password`. -/
def validCreds (c : Option Credentials) : Bool :=
  match c with
  | none => false
  | some c => c.username ≠ "" && c.password ≠ ""

/-- Abstract HTTP response of a handler: a success payload or an error
status with message. -/
inductive ApiResult where
  | ok (message : String)
  | err (code : Nat) (message : String)
deriving Repr, DecidableEq

/-- Variant 1 /api/start-processing handler (lines 370-398): reject when
a batch is active, when credentials are incomplete, or when no records
are loaded; otherwise set `isProcessing`, reset `processedRecords`,
respond, and spawn `processRecords`. The Bool reports whether the
background runner was spawned. -/
def startProcessingV1 (creds : Option Credentials) (s : Sess1) :
    ApiResult × Sess1 × Bool :=
  if s.isProcessing then
    (ApiResult.err 400 "Ya hay un procesamiento en curso", s, false)
  else if !validCreds creds then
    (ApiResult.err 400 "Credenciales requeridas", s, false)
  else if s.records.length = 0 then
    (ApiResult.err 400 "No hay registros para procesar", s, false)
  else
    (ApiResult.ok "Procesamiento iniciado",
     { s with isProcessing := true, processedRecords := 0 }, true)

/-- Variant 1 /api/stop-processing handler (lines 485-489): set
`isProcessing` to false and log a warning, synchronously, before the
success response is returned. -/
def stopProcessingV1 (s : State1) : State1 :=
  { s with
    sess :=
      addLog1 { s.sess with isProcessing := false }
        "Procesamiento detenido por el usuario" "warning" }

/-- Status view returned by /api/processing-status (lines 464-475);
`progress` is `Math.round(processed / total * 100)` computed in natural
arithmetic (round half up), `0` when no records are loaded. -/
structure StatusView where
  isProcessing : Bool
  currentRecord : Option Nat
  totalRecords : Nat
  processedRecords : Nat
  progress : Nat
  records : List Rec1
deriving Repr, DecidableEq

/-- Variant 1 /api/processing-status handler: a pure projection of the
session. -/
def processingStatus (s : Sess1) : StatusView :=
  { isProcessing := s.isProcessing,
    currentRecord := s.currentRecord,
    totalRecords := s.totalRecords,
    processedRecords := s.processedRecords,
    progress :=
      if 0 < s.totalRecords then
        (s.processedRecords * 200 + s.totalRecords) / (2 * s.totalRecords)
      else 0,
    records := s.records }

/-- Variant 2 session: the global `processingState` object
(lines 536-542). The record array itself is owned by the request that
started the batch, not by the session. -/
structure Sess2 where
  isProcessing : Bool
  currentRecord : Option Nat
  processedCount : Nat
  totalCount : Nat
  logs : List LogEntry
deriving Repr, DecidableEq

/-- Append a log entry to a variant 2 session via `addLogV2`. -/
def addLog2 (s : Sess2) (message severity : String) : Sess2 :=
  { s with logs := addLogV2 s.logs ⟨message, severity⟩ }

/-- Outcome oracle for a variant 2 run: the `Math.random() > 0.1` draw
per record index. -/
structure Oracle2 where
  success : Nat → Bool

/-- Program counter of the `simulateAptraProcessing` step machine. -/
inductive PC2 where
  | start
  | loopHead (i : Nat)
  | afterFind (i : Nat)
  | afterCreate (i : Nat)
  | done
deriving Repr, DecidableEq

/-- Full state of a variant 2 run: runner position, shared session, and
the request-owned record array the closure mutates. -/
structure State2 where
  pc : PC2
  sess : Sess2
  records : List Rec2
deriving Repr, DecidableEq

/-- Set `records[i].status` and `records[i].result` for variant 2. -/
def setStatus2 (recs : List Rec2) (i : Nat) (st res : String) : List Rec2 :=
  match recs.get? i with
  | some r => recs.set i { r with status := st, result := some res }
  | none => recs

/-- One atomic segment of `simulateAptraProcessing` (lines 558-615).

* `start`: the opening log lines and the simulated login delay (the two
  awaits before the loop are collapsed; only logs happen between them).
* `loopHead i`: the `for` condition `i < records.length &&
  processingState.isProcessing`; on entry the body sets `currentRecord`,
  sets `processedCount = i` (before the record is terminal), logs, and
  parks on the first simulated await. On exit — also the cooperative
  stop path — the code after the loop and the finally block run with no
  await between them: `processedCount = records.length`, the completion
  log, `isProcessing = false`, `currentRecord = null`.
* `afterFind i`: the creation log line, then the second simulated await.
* `afterCreate i`: the `Math.random` draw resolves through the oracle,
  the record is marked terminal (`completed`/`failed`) with its result
  text, and the runner parks on the inter-record delay await before the
  next loop-condition check. -/
def step2 (orc : Oracle2) (s : State2) : State2 :=
  match s.pc with
  | PC2.start =>
    let sess := addLog2 s.sess "🚀 Iniciando procesamiento simulado..." "info"
    let sess := addLog2 sess "🔐 Simulando login a Aptra..." "info"
    let sess := addLog2 sess "✅ Sesión iniciada correctamente" "success"
    { s with pc := PC2.loopHead 0, sess := sess }
  | PC2.loopHead i =>
    if i < s.records.length ∧ s.sess.isProcessing then
      let sess := { s.sess with currentRecord := some i, processedCount := i }
      let sess := addLog2 sess "🔍 Procesando registro..." "info"
      { s with pc := PC2.afterFind i, sess := sess }
    else
      let sess := { s.sess with processedCount := s.records.length }
      let sess := addLog2 sess "🏁 Procesamiento completado" "success"
      let sess := { sess with isProcessing := false, currentRecord := none }
      { s with pc := PC2.done, sess := sess }
  | PC2.afterFind i =>
    let sess := addLog2 s.sess "📝 Creando evento..." "info"
    { s with pc := PC2.afterCreate i, sess := sess }
  | PC2.afterCreate i =>
    if orc.success i then
      let sess := addLog2 s.sess "✅ Evento creado" "success"
      { s with pc := PC2.loopHead (i + 1), sess := sess,
               records :=
                 setStatus2 s.records i "completed"
                   "Evento creado exitosamente" }
    else
      let sess := addLog2 s.sess "❌ Error simulado" "error"
      { s with pc := PC2.loopHead (i + 1), sess := sess,
               records := setStatus2 s.records i "failed" "Error simulado" }
  | PC2.done => s

/-- Variant 2 /api/process handler (lines 667-689): reject when a batch
is active or credentials are incomplete; otherwise set the flag, install
the counters, clear the logs, spawn the simulated runner and respond.
The Bool reports whether the runner was spawned. -/
def processHandlerV2 (username password : String) (records : List Rec2)
    (s : Sess2) : ApiResult × Sess2 × Bool :=
  if s.isProcessing then
    (ApiResult.err 400 "Ya hay un procesamiento en curso", s, false)
  else if username = "" ∨ password = "" then
    (ApiResult.err 400 "Credenciales requeridas", s, false)
  else
    (ApiResult.ok "Procesamiento iniciado",
     { s with isProcessing := true, totalCount := records.length,
              processedCount := 0, logs := [] }, true)

/-- Variant 2 /api/stop handler (lines 692-696): set `isProcessing` to
false and log a warning, synchronously, before the success response. -/
def stopV2 (s : State2) : State2 :=
  { s with
    sess :=
      addLog2 { s.sess with isProcessing := false }
        "⏹️ Procesamiento detenido por usuario" "warning" }

/-! Concrete fixtures shared by the concrete-run theorems below. -/

/-- A pending variant 1 record as intake produces it. -/
def rec1A : Rec1 := ⟨1, "VANDG", "ATM1", "", "", "", "pending", none⟩

/-- A second pending variant 1 record. -/
def rec1B : Rec1 := ⟨2, "VANDG", "ATM2", "", "", "", "pending", none⟩

/-- Configuration with a falsy delay (no inter-record wait). -/
def cfgNoDelay : Config1 := ⟨0⟩

/-- Driver oracle: login, every search and every creation succeed. -/
def orcAllOk : Oracle1 := ⟨true, fun _ => true, fun _ => true⟩

/-- Driver oracle: login succeeds but every ATM search fails. -/
def orcSearchFail : Oracle1 := ⟨true, fun _ => false, fun _ => true⟩

/-- Variant 1 run state right after /api/start-processing accepted a
one-record batch: flag set, counters reset, runner about to start. -/
def initV1one : State1 :=
  ⟨PC1.start, ⟨true, none, 1, 0, [], [rec1A]⟩, 0, false⟩

/-- Variant 1 run state right after /api/start-processing accepted a
two-record batch. -/
def initV1two : State1 :=
  ⟨PC1.start, ⟨true, none, 2, 0, [], [rec1A, rec1B]⟩, 0, false⟩

/-- A pending variant 2 record. -/
def rec2A : Rec2 := ⟨1, "", "N1", "", "", "", "pending", none⟩

/-- A second pending variant 2 record. -/
def rec2B : Rec2 := ⟨2, "", "N2", "", "", "", "pending", none⟩

/-- Simulated-outcome oracle: every record draw succeeds. -/
def orc2AllOk : Oracle2 := ⟨fun _ => true⟩

/-- Variant 2 run state right after /api/process accepted a two-record
batch. -/
def initV2two : State2 := ⟨PC2.start, ⟨true, none, 0, 2, []⟩, [rec2A, rec2B]⟩

/-! Locator resolver facts. -/

/-- The resolver returns the first candidate the page resolves. -/
theorem tryInOrder_fst (l : List String) (p : String → Bool) :
    (tryInOrder l p).fst = l.find? p := by
  induction l with
  | nil => simp [tryInOrder]
  | cons c rest ih =>
    by_cases h : p c
    · simp [tryInOrder, h, List.find?_cons_of_pos _ h]
    · simp only [tryInOrder, h, if_false, Bool.false_eq_true]
      rw [List.find?_cons_of_neg _ (by simp [h])]
      exact ih

/-- The resolver attempts exactly the failing front of the candidate
list, plus the first success when there is one. -/
theorem tryInOrder_snd (l : List String) (p : String → Bool) :
    (tryInOrder l p).snd =
      l.takeWhile (fun x => !p x) ++ (l.find? p).toList := by
  induction l with
  | nil => simp [tryInOrder]
  | cons c rest ih =>
    by_cases h : p c
    · simp [tryInOrder, h, List.takeWhile_cons, List.find?_cons_of_pos _ h]
    · simp only [tryInOrder, h, if_false, Bool.false_eq_true,
        List.takeWhile_cons]
      rw [List.find?_cons_of_neg _ (by simp [h])]
      simp [h, ih]

/-- C7: the locator resolver tries the ordered candidate list strictly
in order and the first successful strategy wins — the result is the
first candidate the page resolves, the attempted candidates are exactly
the failing front plus that first success, and on candidates
`[A, B, C]` where only `B` matches the resolver returns `B` and never
attempts `C`. -/
theorem c7_locator_first_match :
    (∀ (l : List String) (p : String → Bool),
        (tryInOrder l p).fst = l.find? p) ∧
    (∀ (l : List String) (p : String → Bool),
        (tryInOrder l p).snd =
          l.takeWhile (fun x => !p x) ++ (l.find? p).toList) ∧
    tryInOrder ["A", "B", "C"] (fun x => x == "B") =
      (some "B", ["A", "B"]) ∧
    "C" ∉ (tryInOrder ["A", "B", "C"] (fun x => x == "B")).snd := by
  refine ⟨tryInOrder_fst, tryInOrder_snd, by decide, by decide⟩

/-! Log sink facts. -/

/-- Variant 1 log emission is plain accumulation: folding `addLogV1`
appends every emitted entry, evicting nothing. -/
theorem foldl_addLogV1 (msgs logs : List LogEntry) :
    msgs.foldl addLogV1 logs = logs ++ msgs := by
  induction msgs generalizing logs with
  | nil => simp
  | cons e rest ih => simp [addLogV1, ih]

/-- Variant 2 log emission keeps exactly the most recent 100 entries:
folding `addLogV2` from an empty log equals dropping all but the last
100 emitted entries. -/
theorem foldl_addLogV2 (msgs : List LogEntry) :
    msgs.foldl addLogV2 [] = msgs.drop (msgs.length - 100) := by
  induction msgs using List.reverseRecOn with
  | nil => simp
  | append_singleton q e ih =>
    rw [List.foldl_append]
    simp only [List.foldl_cons, List.foldl_nil, ih]
    by_cases h : q.length < 100
    · have hd : q.length - 100 = 0 := by omega
      have hd2 : (q ++ [e]).length - 100 = 0 := by
        rw [List.length_append]; simp; omega
      rw [hd, List.drop_zero, hd2, List.drop_zero]
      simp only [addLogV2]
      rw [if_neg (by rw [List.length_append]; simp; omega)]
    · push_neg at h
      have hd : (q.drop (q.length - 100)).length = 100 := by
        rw [List.length_drop]; omega
      simp only [addLogV2]
      rw [if_pos (by rw [List.length_append, hd]; simp)]
      have h1 : (q.drop (q.length - 100) ++ [e]).length - 100 = 1 := by
        rw [List.length_append, hd]; simp
      rw [h1]
      have hle : q.length - 100 ≤ q.length := by omega
      rw [← List.drop_append_of_le_length hle, List.drop_drop]
      have h2 : (q ++ [e]).length - 100 = q.length - 100 + 1 := by
        rw [List.length_append]; simp; omega
      rw [h2]

/-- C9 counterexample: the claim asserts the session log is bounded, but
variant 1 `addLog` stores every entry: after 150 emissions the stored
log holds all 150 entries — more than the simulated variant capacity of
100 and more than the 50-entry read window — so no capacity bound is
enforced on the stored log. -/
theorem c9_counterexample_v1_unbounded :
    (((List.range 150).map (fun n => LogEntry.mk (toString n) "info")).foldl
        addLogV1 []).length = 150 ∧ 100 < 150 ∧ 50 < 150 := by
  refine ⟨?_, by omega, by omega⟩
  rw [foldl_addLogV1]
  simp

/-- C9 amended: in the simulated variant the session log is a bounded
append-only ring — emitting any sequence of entries retains exactly the
most recent 100 (oldest evicted first, newest intact, as the retained
list is the final suffix of the emission sequence); in the puppeteer
variant the stored log is unbounded and retains every emission, only
the /api/logs read windowing to the last 50. -/
theorem c9_amended_log_capacity :
    (∀ msgs : List LogEntry,
        msgs.foldl addLogV2 [] = msgs.drop (msgs.length - 100)) ∧
    (∀ msgs : List LogEntry,
        (msgs.foldl addLogV2 []).length = min msgs.length 100) ∧
    (∀ msgs : List LogEntry, msgs.foldl addLogV1 [] = msgs) := by
  refine ⟨foldl_addLogV2, ?_, fun msgs => by simpa using foldl_addLogV1 msgs []⟩
  intro msgs
  rw [foldl_addLogV2, List.length_drop]
  omega

/-! Spreadsheet-intake facts. -/

/-- Every record produced by the indexed map comes from a source row at
the 0-based position its stored id (minus one) names. -/
theorem mem_mapRowsFrom {r : Rec1} :
    ∀ (rows : List Row1) (n : Nat), r ∈ mapRowsFrom n rows →
      ∃ j row, rows.get? j = some row ∧ r = recOfRow (n + j) row := by
  intro rows
  induction rows with
  | nil => intro n h; simp [mapRowsFrom] at h
  | cons row rest ih =>
    intro n h
    rw [mapRowsFrom] at h
    rcases List.mem_cons.mp h with h | h
    · exact ⟨0, row, rfl, by simpa using h⟩
    · obtain ⟨j, row', hg, hr⟩ := ih (n + 1) h
      refine ⟨j + 1, row', by simpa using hg, ?_⟩
      rw [hr]
      congr 1
      omega

/-- The number of surviving records equals the number of source rows
with a truthy identifier cell, whatever start index the map uses. -/
theorem length_filter_mapRowsFrom :
    ∀ (rows : List Row1) (n : Nat),
      ((mapRowsFrom n rows).filter (fun r => r.idNCR ≠ "")).length =
        (rows.filter (fun row => jsOrStr row.idNCR "" ≠ "")).length := by
  intro rows
  induction rows with
  | nil => intro n; simp [mapRowsFrom]
  | cons row rest ih =>
    intro n
    rw [mapRowsFrom]
    by_cases h : jsOrStr row.idNCR "" ≠ ""
    · rw [List.filter_cons_of_pos (by simpa [recOfRow] using h),
        List.filter_cons_of_pos (by simpa using h),
        List.length_cons, List.length_cons, ih (n + 1)]
    · rw [List.filter_cons_of_neg (by simpa [recOfRow] using h),
        List.filter_cons_of_neg (by simpa using h)]
      exact ih (n + 1)

/-- C8 counterexample: uploading 3 rows where row 2 lacks an identifier
yields 2 records, but their stored indices are 1 and 3 — the map index
is assigned before the filter runs, so filtered-out rows leave gaps —
refuting the claimed indices 1 and 2. -/
theorem c8_counterexample_gapped_indices :
    (uploadExcelRecords
        [⟨none, none, some "ATM1", none, none, none⟩,
         ⟨none, none, none, none, none, none⟩,
         ⟨none, none, some "ATM3", none, none, none⟩]).map
      (fun r => r.id) = [1, 3] ∧
    (uploadExcelRecords
        [⟨none, none, some "ATM1", none, none, none⟩,
         ⟨none, none, none, none, none, none⟩,
         ⟨none, none, some "ATM3", none, none, none⟩]).length = 2 ∧
    ([1, 3] : List Nat) ≠ [1, 2] := by
  refine ⟨by decide, by decide, by decide⟩

/-- C8 amended: no record with an empty external identifier ever
appears in the batch, and `totalCount` is the number of surviving
records; but a surviving record's 1-based index is the position of its
source row in the uploaded sheet (assigned before filtering), so the
3-row scenario with row 2 lacking an identifier yields 2 records with
indices 1 and 3, not 1 and 2. The same map-then-filter shape governs
the variant 2 /api/upload handler, whose filter also discards
whitespace-only identifiers. -/
theorem c8_amended_upload_intake :
    (∀ rows : List Row1, ∀ r ∈ uploadExcelRecords rows, r.idNCR ≠ "") ∧
    (∀ rows : List Row1, ∀ r ∈ uploadExcelRecords rows,
        ∃ row, rows.get? (r.id - 1) = some row ∧ r = recOfRow (r.id - 1) row) ∧
    (∀ rows : List Row1,
        (uploadExcelRecords rows).length =
          (rows.filter (fun row => jsOrStr row.idNCR "" ≠ "")).length) ∧
    (∀ rows : List Row2, ∀ r ∈ uploadRecords2 rows,
        r.ncrId ≠ "" ∧ jsTrim r.ncrId ≠ "") ∧
    (uploadExcelRecords
        [⟨none, none, some "ATM1", none, none, none⟩,
         ⟨none, none, none, none, none, none⟩,
         ⟨none, none, some "ATM3", none, none, none⟩]).map
      (fun r => r.id) = [1, 3] := by
  refine ⟨?_, ?_, ?_, ?_, by decide⟩
  · intro rows r hr
    have := List.of_mem_filter hr
    simpa using this
  · intro rows r hr
    have hm : r ∈ mapRowsFrom 0 rows := List.mem_of_mem_filter hr
    obtain ⟨j, row, hg, hrec⟩ := mem_mapRowsFrom rows 0 hm
    have hid : r.id = j + 1 := by rw [hrec]; simp [recOfRow]
    refine ⟨row, ?_, ?_⟩
    · rw [hid]; simpa using hg
    · rw [hid]; simpa using hrec
  · intro rows
    simp only [uploadExcelRecords]
    exact length_filter_mapRowsFrom rows 0
  · intro rows r hr
    have := List.of_mem_filter hr
    simpa using this

/-! Incident form filler facts. -/

/-- The save step succeeds exactly when some save candidate resolves. -/
theorem saveIncident_fst (avail : String → Bool) :
    (saveIncident avail).fst = (tryInOrder saveSelectors avail).fst.isSome := by
  rw [saveIncident]
  cases (tryInOrder saveSelectors avail).fst <;> simp

/-- The form filler attempts every field of the fixed sequence, in
order, whatever the page resolves. -/
theorem fillFields_names (avail : String → Bool) :
    ∀ fs : List (String × String),
      (fillFields avail fs).fst.map Prod.fst = fs.map Prod.fst := by
  intro fs
  induction fs with
  | nil => simp [fillFields]
  | cons fv rest ih =>
    obtain ⟨name, value⟩ := fv
    simp [fillFields, ih]

/-- When no candidate selector resolves, `fillField` emits exactly the
warning entry naming the field. -/
theorem fillField_snd_of_not_found (avail : String → Bool) (f v : String)
    (h : (fillField avail f v).fst = false) :
    (fillField avail f v).snd = [⟨fieldWarning f, "warning"⟩] := by
  rw [fillField] at h ⊢
  cases hm : (tryInOrder (fieldSelectors f) avail).fst <;> simp_all

/-- A field the page could not resolve leaves a warning naming it in the
emitted logs. -/
theorem fillFields_warning (avail : String → Bool) :
    ∀ (fs : List (String × String)) (f : String),
      (f, false) ∈ (fillFields avail fs).fst →
        LogEntry.mk (fieldWarning f) "warning" ∈ (fillFields avail fs).snd := by
  intro fs
  induction fs with
  | nil => intro f h; simp [fillFields] at h
  | cons fv rest ih =>
    obtain ⟨name, value⟩ := fv
    intro f h
    rw [fillFields] at h ⊢
    rcases List.mem_cons.mp h with h | h
    · rw [Prod.mk.injEq] at h
      obtain ⟨hname, hfst⟩ := h
      subst hname
      apply List.mem_append_left
      rw [fillField_snd_of_not_found avail f value hfst.symm]
      simp
    · exact List.mem_append_right _ (ih f h)

/-- C6: the record-level outcome of `createIncident` depends only on the
navigation (create button) and save steps, never on whether any form
field could be located; every field of the fixed sequence is attempted
regardless of earlier field failures; and an unresolvable field leaves
a warning log naming it while filling continues. -/
theorem c6_field_failures_nonfatal :
    (∀ (avail : String → Bool) (record : Rec1),
        (createIncident avail record).fst =
          ((tryInOrder createButtonSelectors avail).fst.isSome &&
           (tryInOrder saveSelectors avail).fst.isSome)) ∧
    (∀ (avail : String → Bool) (record : Rec1),
        (fillIncidentForm avail record).fst.map Prod.fst =
          (formFields record).map Prod.fst) ∧
    (∀ (avail : String → Bool) (record : Rec1) (f : String),
        (f, false) ∈ (fillIncidentForm avail record).fst →
          LogEntry.mk (fieldWarning f) "warning" ∈
            (fillIncidentForm avail record).snd) := by
  refine ⟨?_, ?_, ?_⟩
  · intro avail record
    rw [createIncident]
    cases (tryInOrder createButtonSelectors avail).fst with
    | none => simp
    | some btn =>
      simp only [Option.isSome_some, Bool.true_and]
      rw [← saveIncident_fst avail]
      cases hs : (saveIncident avail).fst <;> simp [hs]
  · intro avail record
    exact fillFields_names avail (formFields record)
  · intro avail record f h
    exact fillFields_warning avail (formFields record) f h

/-! Start/stop handler facts. -/

/-- C3: a start request that finds `isProcessing` already true is
rejected with an error and changes nothing; a start request on an idle
session with credentials and records is accepted, sets the flag before
any runner work happens, and a second start issued right after it is
rejected — exactly one of two back-to-back starts is accepted and
spawns a batch. Both the puppeteer handler and the simulated-variant handler
enforce this check-then-set discipline. -/
theorem c3_single_active_batch :
    (∀ (creds : Option Credentials) (s : Sess1),
        s.isProcessing = false → validCreds creds = true →
        s.records ≠ [] →
          (startProcessingV1 creds s).fst =
            ApiResult.ok "Procesamiento iniciado" ∧
          (startProcessingV1 creds s).snd.snd = true ∧
          (startProcessingV1 creds s).snd.fst.isProcessing = true ∧
          (∀ creds2 : Option Credentials,
            startProcessingV1 creds2 (startProcessingV1 creds s).snd.fst =
              (ApiResult.err 400 "Ya hay un procesamiento en curso",
               (startProcessingV1 creds s).snd.fst, false))) ∧
    (∀ (creds : Option Credentials) (s : Sess1), s.isProcessing = true →
        startProcessingV1 creds s =
          (ApiResult.err 400 "Ya hay un procesamiento en curso", s, false)) ∧
    (∀ (u p : String) (records : List Rec2) (s : Sess2),
        s.isProcessing = false → u ≠ "" → p ≠ "" →
          (processHandlerV2 u p records s).fst =
            ApiResult.ok "Procesamiento iniciado" ∧
          (processHandlerV2 u p records s).snd.snd = true ∧
          (∀ (u2 p2 : String) (records2 : List Rec2),
            processHandlerV2 u2 p2 records2
                (processHandlerV2 u p records s).snd.fst =
              (ApiResult.err 400 "Ya hay un procesamiento en curso",
               (processHandlerV2 u p records s).snd.fst, false))) ∧
    (∀ (u p : String) (records : List Rec2) (s : Sess2),
        s.isProcessing = true →
          processHandlerV2 u p records s =
            (ApiResult.err 400 "Ya hay un procesamiento en curso", s, false)) := by
  refine ⟨?_, ?_, ?_, ?_⟩
  · intro creds s hidle hc hr
    have hlen : ¬s.records.length = 0 := by
      simpa [List.length_eq_zero] using hr
    simp [startProcessingV1, hidle, hc, hlen]
  · intro creds s hbusy
    simp [startProcessingV1, hbusy]
  · intro u p records s hidle hu hp
    simp [processHandlerV2, hidle, hu, hp]
  · intro u p records s hbusy
    simp [processHandlerV2, hbusy]

/-- Appending a log entry leaves the variant 1 processing flag alone. -/
@[simp] theorem addLog1_isProcessing (s : Sess1) (m t : String) :
    (addLog1 s m t).isProcessing = s.isProcessing := rfl

/-- Appending a log entry leaves the variant 2 processing flag alone. -/
@[simp] theorem addLog2_isProcessing (s : Sess2) (m t : String) :
    (addLog2 s m t).isProcessing = s.isProcessing := rfl

/-- No segment of the variant 1 runner ever raises the processing flag:
once false, it stays false across every step. -/
theorem step1_preserves_stopped (cfg : Config1) (orc : Oracle1)
    (s : State1) (h : s.sess.isProcessing = false) :
    (step1 cfg orc s).sess.isProcessing = false := by
  obtain ⟨pc, sess, cc, bo⟩ := s
  cases pc <;>
    simp only [step1] <;>
    (try split_ifs) <;>
    simp_all

/-- No segment of the variant 2 runner ever raises the processing flag:
once false, it stays false across every step. -/
theorem step2_preserves_stopped (orc : Oracle2) (s : State2)
    (h : s.sess.isProcessing = false) :
    (step2 orc s).sess.isProcessing = false := by
  obtain ⟨pc, sess, recs⟩ := s
  cases pc <;>
    simp only [step2] <;>
    (try split_ifs) <;>
    simp_all

/-- C10: each stop handler sets the session's `isProcessing` flag to
false synchronously, before its success response is returned, and no
later segment of the (still running) background batch runner ever sets
it back to true — so a status poll issued any number of runner steps
after the stop response always observes `isProcessing = false`, even
while the runner is still mutating records mid-batch. -/
theorem c10_stop_synchronously_observed :
    (∀ s : State1, (stopProcessingV1 s).sess.isProcessing = false) ∧
    (∀ (cfg : Config1) (orc : Oracle1) (s : State1) (n : Nat),
        (processingStatus
            (((step1 cfg orc)^[n] (stopProcessingV1 s)).sess)).isProcessing =
          false) ∧
    (∀ s : State2, (stopV2 s).sess.isProcessing = false) ∧
    (∀ (orc : Oracle2) (s : State2) (n : Nat),
        ((step2 orc)^[n] (stopV2 s)).sess.isProcessing = false) := by
  have hstop1 : ∀ s : State1, (stopProcessingV1 s).sess.isProcessing = false :=
    fun s => rfl
  have hstop2 : ∀ s : State2, (stopV2 s).sess.isProcessing = false :=
    fun s => rfl
  refine ⟨hstop1, ?_, hstop2, ?_⟩
  · intro cfg orc s n
    have : ∀ (m : Nat) (t : State1), t.sess.isProcessing = false →
        ((step1 cfg orc)^[m] t).sess.isProcessing = false := by
      intro m
      induction m with
      | zero => intro t ht; simpa using ht
      | succ m ihm =>
        intro t ht
        rw [Function.iterate_succ_apply]
        exact ihm _ (step1_preserves_stopped cfg orc t ht)
    exact this n _ (hstop1 s)
  · intro orc s n
    have : ∀ (m : Nat) (t : State2), t.sess.isProcessing = false →
        ((step2 orc)^[m] t).sess.isProcessing = false := by
      intro m
      induction m with
      | zero => intro t ht; simpa using ht
      | succ m ihm =>
        intro t ht
        rw [Function.iterate_succ_apply]
        exact ihm _ (step2_preserves_stopped orc t ht)
    exact this n _ (hstop2 s)

/-! Concrete batch runs exhibiting the divergences between the counter
discipline / stop discipline and the runner code. -/

/-- C1: `processedCount` diverges from the number of terminal records.
Variant 1: a one-record batch whose ATM search fails runs to completion
with the record terminal (status `error`, the failed value of this
variant) yet `processedRecords = 0` — the `continue` on the search
failure path skips the increment, so the count is not incremented once
per record. Variant 2: after record 1 of 2 completes, the runner parks
on the inter-record delay with `processedCount = 0` while one record is
already terminal (the count is assigned at loop entry, before the
record is terminal); and if the batch is stopped there, the loop-exit
assignment jumps `processedCount` to 2 although only one record ever
reached a terminal status. -/
theorem c1_processed_count_divergence :
    (let t := (step1 cfgNoDelay orcSearchFail)^[6] initV1one
     t.pc = PC1.done ∧
     (t.sess.records.filter
        (fun r => r.status = "completed" ∨ r.status = "failed" ∨
          r.status = "error")).length = 1 ∧
     t.sess.processedRecords = 0) ∧
    (let u := (step2 orc2AllOk)^[4] initV2two
     (u.records.filter
        (fun r => r.status = "completed" ∨ r.status = "failed")).length = 1 ∧
     u.sess.processedCount = 0 ∧
     u.sess.isProcessing = true) ∧
    (let v := step2 orc2AllOk (stopV2 ((step2 orc2AllOk)^[4] initV2two))
     v.pc = PC2.done ∧
     (v.records.filter
        (fun r => r.status = "completed" ∨ r.status = "failed")).length = 1 ∧
     v.sess.processedCount = 2) := by
  decide

/-- C2: the variant 1 runner ignores the stop signal. In a two-record
batch, stopping while record 1 is in flight (the runner parked inside
its search, `currentRecord = 0`) does not prevent record 2 from being
processed: the run continues to completion and record 2 reaches a
terminal status, because the `for` loop of `processRecords` never reads
`isProcessing`. The simulated variant checks the flag at the loop
boundary: under the same schedule the in-flight record still reaches a
terminal status but the next record stays pending. -/
theorem c2_stop_signal_ignored_v1 :
    (((step1 cfgNoDelay orcAllOk)^[2] initV1two).pc = PC1.afterSearch 0 ∧
     ((step1 cfgNoDelay orcAllOk)^[2] initV1two).sess.currentRecord =
       some 0) ∧
    (let t := (step1 cfgNoDelay orcAllOk)^[8]
        (stopProcessingV1 ((step1 cfgNoDelay orcAllOk)^[2] initV1two))
     t.pc = PC1.done ∧
     (t.sess.records.get? 0).map Rec1.status = some "completed" ∧
     (t.sess.records.get? 1).map Rec1.status = some "completed" ∧
     t.sess.isProcessing = false) ∧
    (((step2 orc2AllOk)^[2] initV2two).pc = PC2.afterFind 0 ∧
     ((step2 orc2AllOk)^[2] initV2two).sess.currentRecord = some 0) ∧
    (let u := (step2 orc2AllOk)^[3]
        (stopV2 ((step2 orc2AllOk)^[2] initV2two))
     u.pc = PC2.done ∧
     (u.records.get? 0).map Rec2.status = some "completed" ∧
     (u.records.get? 1).map Rec2.status = some "pending" ∧
     u.sess.isProcessing = false) := by
  decide

/-- C5 counterexample: at an observation point in the middle of an
active variant 1 batch (the runner parked inside the search for record
1), the batch is active and `currentRecord` references the in-flight
record, yet zero records — not exactly one — have `status =
"processing"`: the in-flight record still reads `pending`, because the
code never assigns a `processing` status value. -/
theorem c5_counterexample_no_processing_status :
    let t := (step1 cfgNoDelay orcAllOk)^[2] initV1one
    t.sess.isProcessing = true ∧
    t.sess.currentRecord = some 0 ∧
    (t.sess.records.filter (fun r => r.status = "processing")).length = 0 ∧
    (t.sess.records.get? 0).map Rec1.status = some "pending" := by
  decide

/-! Cleanup-on-every-exit-path machinery. -/

/-- Marking a record completed never changes the record count. -/
@[simp] theorem length_setStatus1 (recs : List Rec1) (i : Nat) (st : String) :
    (setStatus1 recs i st).length = recs.length := by
  rw [setStatus1]
  cases recs.get? i <;> simp

/-- Marking a record failed never changes the record count. -/
@[simp] theorem length_setStatusErr1 (recs : List Rec1) (i : Nat)
    (st err : String) :
    (setStatusErr1 recs i st err).length = recs.length := by
  rw [setStatusErr1]
  cases recs.get? i <;> simp

/-- Marking a variant 2 record terminal never changes the record count. -/
@[simp] theorem length_setStatus2 (recs : List Rec2) (i : Nat)
    (st res : String) :
    (setStatus2 recs i st res).length = recs.length := by
  rw [setStatus2]
  cases recs.get? i <;> simp

/-- Logging leaves the variant 1 record list alone. -/
@[simp] theorem addLog1_records (s : Sess1) (m t : String) :
    (addLog1 s m t).records = s.records := rfl

/-- Logging leaves the variant 1 currentRecord alone. -/
@[simp] theorem addLog1_currentRecord (s : Sess1) (m t : String) :
    (addLog1 s m t).currentRecord = s.currentRecord := rfl

/-- Logging leaves the variant 1 counters alone. -/
@[simp] theorem addLog1_processedRecords (s : Sess1) (m t : String) :
    (addLog1 s m t).processedRecords = s.processedRecords := rfl

/-- Logging leaves the variant 1 total alone. -/
@[simp] theorem addLog1_totalRecords (s : Sess1) (m t : String) :
    (addLog1 s m t).totalRecords = s.totalRecords := rfl

/-- Logging leaves the variant 2 currentRecord alone. -/
@[simp] theorem addLog2_currentRecord (s : Sess2) (m t : String) :
    (addLog2 s m t).currentRecord = s.currentRecord := rfl

/-- Logging leaves the variant 2 counter alone. -/
@[simp] theorem addLog2_processedCount (s : Sess2) (m t : String) :
    (addLog2 s m t).processedCount = s.processedCount := rfl

/-- From the finally block entry (`cleanup`), two segments always reach
`done`: the close call releases the browser exactly when it was open,
and the finally assignments lower the flag and clear `currentRecord`. -/
theorem v1_cleanup_done (cfg : Config1) (orc : Oracle1) (s : State1)
    (hpc : s.pc = PC1.cleanup) :
    ((step1 cfg orc)^[2] s).pc = PC1.done ∧
    ((step1 cfg orc)^[2] s).closeCalls =
      s.closeCalls + (if s.browserOpen then 1 else 0) ∧
    ((step1 cfg orc)^[2] s).sess.isProcessing = false ∧
    ((step1 cfg orc)^[2] s).sess.currentRecord = none ∧
    ((step1 cfg orc)^[2] s).browserOpen = false := by
  obtain ⟨pc, sess, cc, bo⟩ := s
  have hpc' : pc = PC1.cleanup := hpc
  subst hpc'
  exact ⟨rfl, rfl, rfl, rfl, rfl⟩

/-- A loop-condition failure reaches `done` in three segments, running
the completion log and the finally block. -/
theorem v1_exit_done (cfg : Config1) (orc : Oracle1) (i : Nat) (s : State1)
    (hpc : s.pc = PC1.loopHead i) (hi : ¬ i < s.sess.records.length) :
    ((step1 cfg orc)^[3] s).pc = PC1.done ∧
    ((step1 cfg orc)^[3] s).closeCalls =
      s.closeCalls + (if s.browserOpen then 1 else 0) ∧
    ((step1 cfg orc)^[3] s).sess.isProcessing = false ∧
    ((step1 cfg orc)^[3] s).sess.currentRecord = none ∧
    ((step1 cfg orc)^[3] s).browserOpen = false := by
  obtain ⟨pc, sess, cc, bo⟩ := s
  have hpc' : pc = PC1.loopHead i := hpc
  subst hpc'
  have h1 : step1 cfg orc ⟨PC1.loopHead i, sess, cc, bo⟩ =
      ⟨PC1.cleanup, addLog1 sess "🎉 Procesamiento completado" "success",
       cc, bo⟩ := by
    simp only [step1]
    rw [if_neg hi]
  have h3 : ((step1 cfg orc)^[3] (⟨PC1.loopHead i, sess, cc, bo⟩ : State1)) =
      (step1 cfg orc)^[2]
        (step1 cfg orc ⟨PC1.loopHead i, sess, cc, bo⟩) := rfl
  rw [h3, h1]
  exact v1_cleanup_done cfg orc _ rfl

/-- One loop iteration of the variant 1 runner: from the loop head with
a record left, some number of segments reaches the next loop head with
the resource accounting and the record count untouched. -/
theorem v1_advance (cfg : Config1) (orc : Oracle1) (i : Nat) (s : State1)
    (hpc : s.pc = PC1.loopHead i) (hi : i < s.sess.records.length) :
    ∃ m, ((step1 cfg orc)^[m] s).pc = PC1.loopHead (i + 1) ∧
      ((step1 cfg orc)^[m] s).closeCalls = s.closeCalls ∧
      ((step1 cfg orc)^[m] s).browserOpen = s.browserOpen ∧
      ((step1 cfg orc)^[m] s).sess.records.length =
        s.sess.records.length := by
  obtain ⟨pc, sess, cc, bo⟩ := s
  have hpc' : pc = PC1.loopHead i := hpc
  subst hpc'
  by_cases hs : orc.searchOk i
  · by_cases hc : orc.createOk i
    · by_cases hd : cfg.delay ≠ 0 ∧ i < sess.records.length - 1
      · refine ⟨4, ?_⟩
        have h4 : ((step1 cfg orc)^[4]
            (⟨PC1.loopHead i, sess, cc, bo⟩ : State1)) =
            step1 cfg orc (step1 cfg orc (step1 cfg orc
              (step1 cfg orc ⟨PC1.loopHead i, sess, cc, bo⟩))) := rfl
        rw [h4]
        simp [step1, hi, hs, hc, hd]
      · refine ⟨3, ?_⟩
        have h3 : ((step1 cfg orc)^[3]
            (⟨PC1.loopHead i, sess, cc, bo⟩ : State1)) =
            step1 cfg orc (step1 cfg orc
              (step1 cfg orc ⟨PC1.loopHead i, sess, cc, bo⟩)) := rfl
        rw [h3]
        simp [step1, hi, hs, hc, hd]
    · by_cases hd : cfg.delay ≠ 0 ∧ i < sess.records.length - 1
      · refine ⟨4, ?_⟩
        have h4 : ((step1 cfg orc)^[4]
            (⟨PC1.loopHead i, sess, cc, bo⟩ : State1)) =
            step1 cfg orc (step1 cfg orc (step1 cfg orc
              (step1 cfg orc ⟨PC1.loopHead i, sess, cc, bo⟩))) := rfl
        rw [h4]
        simp [step1, hi, hs, hc, hd]
      · refine ⟨3, ?_⟩
        have h3 : ((step1 cfg orc)^[3]
            (⟨PC1.loopHead i, sess, cc, bo⟩ : State1)) =
            step1 cfg orc (step1 cfg orc
              (step1 cfg orc ⟨PC1.loopHead i, sess, cc, bo⟩)) := rfl
        rw [h3]
        simp [step1, hi, hs, hc, hd]
  · refine ⟨2, ?_⟩
    have h2 : ((step1 cfg orc)^[2]
        (⟨PC1.loopHead i, sess, cc, bo⟩ : State1)) =
        step1 cfg orc (step1 cfg orc ⟨PC1.loopHead i, sess, cc, bo⟩) := rfl
    rw [h2]
    simp [step1, hi, hs]

/-- From any loop head, the variant 1 runner reaches `done` with the
browser released exactly once (when it was open), the processing flag
lowered and the current record cleared, whatever the driver outcomes
and configuration. -/
theorem v1_loop_done (cfg : Config1) (orc : Oracle1) :
    ∀ (k i : Nat) (s : State1), s.pc = PC1.loopHead i →
      s.sess.records.length ≤ i + k →
      ∃ n, ((step1 cfg orc)^[n] s).pc = PC1.done ∧
        ((step1 cfg orc)^[n] s).closeCalls =
          s.closeCalls + (if s.browserOpen then 1 else 0) ∧
        ((step1 cfg orc)^[n] s).sess.isProcessing = false ∧
        ((step1 cfg orc)^[n] s).sess.currentRecord = none ∧
        ((step1 cfg orc)^[n] s).browserOpen = false := by
  intro k
  induction k with
  | zero =>
    intro i s hpc hlen
    exact ⟨3, v1_exit_done cfg orc i s hpc (by omega)⟩
  | succ k ih =>
    intro i s hpc hlen
    by_cases hi : i < s.sess.records.length
    · obtain ⟨m, hm⟩ := v1_advance cfg orc i s hpc hi
      obtain ⟨n, hn⟩ := ih (i + 1) ((step1 cfg orc)^[m] s) hm.1 (by
        rw [hm.2.2.2]
        omega)
      refine ⟨n + m, ?_⟩
      rw [Function.iterate_add_apply]
      refine ⟨hn.1, ?_, hn.2.2.1, hn.2.2.2.1, hn.2.2.2.2⟩
      rw [hn.2.1, hm.2.1, hm.2.2.1]
    · exact ⟨3, v1_exit_done cfg orc i s hpc hi⟩

/-- A failed loop condition in the variant 2 runner — the batch is
exhausted or the cooperative stop flag was lowered — reaches `done` in
one segment: the post-loop code and the finally block share the same
atomic segment. -/
theorem v2_exit_done (orc : Oracle2) (i : Nat) (s : State2)
    (hpc : s.pc = PC2.loopHead i)
    (hc : ¬ (i < s.records.length ∧ s.sess.isProcessing)) :
    ((step2 orc)^[1] s).pc = PC2.done ∧
    ((step2 orc)^[1] s).sess.isProcessing = false ∧
    ((step2 orc)^[1] s).sess.currentRecord = none := by
  obtain ⟨pc, sess, recs⟩ := s
  have hpc' : pc = PC2.loopHead i := hpc
  subst hpc'
  have h1 : ((step2 orc)^[1] (⟨PC2.loopHead i, sess, recs⟩ : State2)) =
      step2 orc ⟨PC2.loopHead i, sess, recs⟩ := rfl
  rw [h1]
  simp only [step2]
  rw [if_neg hc]
  exact ⟨rfl, rfl, rfl⟩

/-- One loop iteration of the variant 2 runner: three segments from a
passing loop condition to the next condition check, leaving the record
count and the processing flag alone. -/
theorem v2_advance (orc : Oracle2) (i : Nat) (s : State2)
    (hpc : s.pc = PC2.loopHead i)
    (hc : i < s.records.length ∧ s.sess.isProcessing) :
    ((step2 orc)^[3] s).pc = PC2.loopHead (i + 1) ∧
    ((step2 orc)^[3] s).records.length = s.records.length ∧
    ((step2 orc)^[3] s).sess.isProcessing = s.sess.isProcessing := by
  obtain ⟨pc, sess, recs⟩ := s
  have hpc' : pc = PC2.loopHead i := hpc
  subst hpc'
  have h3 : ((step2 orc)^[3] (⟨PC2.loopHead i, sess, recs⟩ : State2)) =
      step2 orc (step2 orc (step2 orc ⟨PC2.loopHead i, sess, recs⟩)) := rfl
  obtain ⟨hc1, hc2⟩ := hc
  have hc3 : i < recs.length := hc1
  have hc4 : sess.isProcessing = true := hc2
  rw [h3]
  by_cases ho : orc.success i <;>
    simp [step2, hc3, hc4, ho, addLog2]

/-- From any loop head — in particular from the state right after a
cooperative stop lowered the flag — the variant 2 runner reaches `done`
with the processing flag lowered and the current record cleared. -/
theorem v2_loop_done (orc : Oracle2) :
    ∀ (k i : Nat) (s : State2), s.pc = PC2.loopHead i →
      s.records.length ≤ i + k →
      ∃ n, ((step2 orc)^[n] s).pc = PC2.done ∧
        ((step2 orc)^[n] s).sess.isProcessing = false ∧
        ((step2 orc)^[n] s).sess.currentRecord = none := by
  intro k
  induction k with
  | zero =>
    intro i s hpc hlen
    exact ⟨1, v2_exit_done orc i s hpc (fun h => absurd h.1 (by omega))⟩
  | succ k ih =>
    intro i s hpc hlen
    by_cases hc : i < s.records.length ∧ s.sess.isProcessing
    · obtain ⟨hadv1, hadv2, hadv3⟩ := v2_advance orc i s hpc hc
      obtain ⟨n, hn⟩ := ih (i + 1) ((step2 orc)^[3] s) hadv1 (by
        rw [hadv2]
        omega)
      refine ⟨n + 3, ?_⟩
      rw [Function.iterate_add_apply]
      exact hn
    · exact ⟨1, v2_exit_done orc i s hpc hc⟩

/-- C4: every exit path of a batch run executes the cleanup. Variant 1,
from the runner start: whatever the login outcome, the per-record
outcomes and the delay configuration, the run reaches its final state
with the browser released exactly once, `isProcessing = false` and
`currentRecord` cleared — both on the normal path through the loop and
on the fatal login-failure path that throws into the catch. The same
holds from any loop head, which covers runs a stop request has already
flagged. Variant 2, from the runner start and from any loop head
(covering the cooperative stop exit): the finally block always runs,
lowering the flag and clearing the current record. -/
theorem c4_cleanup_on_every_exit :
    (∀ (cfg : Config1) (orc : Oracle1) (s : State1), s.pc = PC1.start →
      ∃ n, ((step1 cfg orc)^[n] s).pc = PC1.done ∧
        ((step1 cfg orc)^[n] s).closeCalls = s.closeCalls + 1 ∧
        ((step1 cfg orc)^[n] s).sess.isProcessing = false ∧
        ((step1 cfg orc)^[n] s).sess.currentRecord = none ∧
        ((step1 cfg orc)^[n] s).browserOpen = false) ∧
    (∀ (cfg : Config1) (orc : Oracle1) (s : State1) (i : Nat),
      s.pc = PC1.loopHead i →
      ∃ n, ((step1 cfg orc)^[n] s).pc = PC1.done ∧
        ((step1 cfg orc)^[n] s).closeCalls =
          s.closeCalls + (if s.browserOpen then 1 else 0) ∧
        ((step1 cfg orc)^[n] s).sess.isProcessing = false ∧
        ((step1 cfg orc)^[n] s).sess.currentRecord = none) ∧
    (∀ (orc : Oracle2) (s : State2), s.pc = PC2.start →
      ∃ n, ((step2 orc)^[n] s).pc = PC2.done ∧
        ((step2 orc)^[n] s).sess.isProcessing = false ∧
        ((step2 orc)^[n] s).sess.currentRecord = none) ∧
    (∀ (orc : Oracle2) (s : State2) (i : Nat), s.pc = PC2.loopHead i →
      ∃ n, ((step2 orc)^[n] s).pc = PC2.done ∧
        ((step2 orc)^[n] s).sess.isProcessing = false ∧
        ((step2 orc)^[n] s).sess.currentRecord = none) := by
  refine ⟨?_, ?_, ?_, ?_⟩
  · intro cfg orc s hpc
    obtain ⟨pc, sess, cc, bo⟩ := s
    have hpc' : pc = PC1.start := hpc
    subst hpc'
    by_cases hl : orc.loginOk
    · have hpc1 : (step1 cfg orc ⟨PC1.start, sess, cc, bo⟩).pc =
          PC1.loopHead 0 := by simp [step1, hl]
      have hcc1 : (step1 cfg orc ⟨PC1.start, sess, cc, bo⟩).closeCalls =
          cc := by simp [step1, hl]
      have hbo1 : (step1 cfg orc ⟨PC1.start, sess, cc, bo⟩).browserOpen =
          true := by simp [step1, hl]
      obtain ⟨n, hn⟩ := v1_loop_done cfg orc
        ((step1 cfg orc ⟨PC1.start, sess, cc, bo⟩).sess.records.length) 0
        (step1 cfg orc ⟨PC1.start, sess, cc, bo⟩) hpc1 (by omega)
      refine ⟨n + 1, ?_⟩
      rw [Function.iterate_add_apply, Function.iterate_one]
      refine ⟨hn.1, ?_, hn.2.2.1, hn.2.2.2.1, hn.2.2.2.2⟩
      rw [hn.2.1, hcc1, hbo1]
      simp
    · have hpc1 : (step1 cfg orc ⟨PC1.start, sess, cc, bo⟩).pc =
          PC1.cleanup := by simp [step1, hl]
      have hcc1 : (step1 cfg orc ⟨PC1.start, sess, cc, bo⟩).closeCalls =
          cc := by simp [step1, hl]
      have hbo1 : (step1 cfg orc ⟨PC1.start, sess, cc, bo⟩).browserOpen =
          true := by simp [step1, hl]
      have h2 := v1_cleanup_done cfg orc
        (step1 cfg orc ⟨PC1.start, sess, cc, bo⟩) hpc1
      refine ⟨2 + 1, ?_⟩
      rw [Function.iterate_add_apply, Function.iterate_one]
      refine ⟨h2.1, ?_, h2.2.2.1, h2.2.2.2.1, h2.2.2.2.2⟩
      rw [h2.2.1, hcc1, hbo1]
      simp
  · intro cfg orc s i hpc
    obtain ⟨n, hn⟩ := v1_loop_done cfg orc s.sess.records.length i s hpc
      (by omega)
    exact ⟨n, hn.1, hn.2.1, hn.2.2.1, hn.2.2.2.1⟩
  · intro orc s hpc
    obtain ⟨pc, sess, recs⟩ := s
    have hpc' : pc = PC2.start := hpc
    subst hpc'
    have hpc1 : (step2 orc ⟨PC2.start, sess, recs⟩).pc =
        PC2.loopHead 0 := rfl
    have hrec1 : (step2 orc ⟨PC2.start, sess, recs⟩).records = recs := rfl
    obtain ⟨n, hn⟩ := v2_loop_done orc recs.length 0
      (step2 orc ⟨PC2.start, sess, recs⟩) hpc1 (by rw [hrec1]; omega)
    refine ⟨n + 1, ?_⟩
    rw [Function.iterate_add_apply, Function.iterate_one]
    exact hn
  · intro orc s i hpc
    exact v2_loop_done orc s.records.length i s hpc (by omega)

/-! Status-lifecycle machinery. -/

/-- Least record index the variant 1 runner may still write a status to,
from its position; `none` once the run can write no further status. -/
def writeFrontier1 : PC1 → Option Nat
  | PC1.start => some 0
  | PC1.loopHead i => some i
  | PC1.afterSearch i => some i
  | PC1.afterCreate i => some i
  | PC1.afterDelay i => some (i + 1)
  | PC1.cleanup => none
  | PC1.finalizeRun => none
  | PC1.done => none

/-- Run invariant of the variant 1 runner: every record at or beyond
the write frontier is still pending. Holds at the start of a batch
(all records pending, frontier 0). -/
def Inv1 (s : State1) : Prop :=
  match writeFrontier1 s.pc with
  | none => True
  | some i =>
    ∀ j, i ≤ j → ∀ r, s.sess.records.get? j = some r → r.status = "pending"

/-- Setting a status at the frontier index leaves every later index
unchanged in `setStatusErr1`. -/
theorem get?_setStatusErr1_ne (recs : List Rec1) (i j : Nat)
    (st err : String) (h : i ≠ j) :
    (setStatusErr1 recs i st err).get? j = recs.get? j := by
  rw [setStatusErr1]
  cases recs.get? i with
  | none => rfl
  | some r => exact List.get?_set_ne _ _ h

/-- Setting a status at the frontier index leaves every later index
unchanged in `setStatus1`. -/
theorem get?_setStatus1_ne (recs : List Rec1) (i j : Nat) (st : String)
    (h : i ≠ j) :
    (setStatus1 recs i st).get? j = recs.get? j := by
  rw [setStatus1]
  cases recs.get? i with
  | none => rfl
  | some r => exact List.get?_set_ne _ _ h

/-- Reading back the index `setStatusErr1` wrote. -/
theorem get?_setStatusErr1_eq (recs : List Rec1) (i : Nat)
    (st err : String) (r : Rec1) (hr : recs.get? i = some r) :
    (setStatusErr1 recs i st err).get? i =
      some { r with status := st, error := some err } := by
  rw [setStatusErr1, hr]
  exact List.get?_set_eq_of_lt _ (List.get?_eq_some.mp hr).fst

/-- Reading back the index `setStatus1` wrote. -/
theorem get?_setStatus1_eq (recs : List Rec1) (i : Nat) (st : String)
    (r : Rec1) (hr : recs.get? i = some r) :
    (setStatus1 recs i st).get? i = some { r with status := st } := by
  rw [setStatus1, hr]
  exact List.get?_set_eq_of_lt _ (List.get?_eq_some.mp hr).fst

/-- Every variant 1 segment preserves the pending-beyond-frontier run
invariant. -/
theorem step1_preserves_Inv1 (cfg : Config1) (orc : Oracle1) (s : State1)
    (hinv : Inv1 s) : Inv1 (step1 cfg orc s) := by
  obtain ⟨pc, sess, cc, bo⟩ := s
  cases pc with
  | start =>
    have hbase : ∀ j, 0 ≤ j → ∀ r, sess.records.get? j = some r →
        r.status = "pending" := hinv
    by_cases hl : orc.loginOk
    · simp only [step1]
      rw [if_pos hl]
      exact fun j hj r hr => hbase j (by omega) r hr
    · simp only [step1]
      rw [if_neg hl]
      trivial
  | loopHead i =>
    have hbase : ∀ j, i ≤ j → ∀ r, sess.records.get? j = some r →
        r.status = "pending" := hinv
    by_cases hi : i < sess.records.length
    · simp only [step1]
      rw [if_pos hi]
      exact fun j hj r hr => hbase j hj r hr
    · simp only [step1]
      rw [if_neg hi]
      trivial
  | afterSearch i =>
    have hbase : ∀ j, i ≤ j → ∀ r, sess.records.get? j = some r →
        r.status = "pending" := hinv
    by_cases hs : orc.searchOk i
    · simp only [step1]
      rw [if_pos hs]
      exact fun j hj r hr => hbase j hj r hr
    · simp only [step1]
      rw [if_neg hs]
      refine fun j hj r hr => ?_
      have hr2 : (setStatusErr1 sess.records i "error"
          "No se pudo encontrar el ATM").get? j = some r := hr
      rw [get?_setStatusErr1_ne sess.records i j _ _ (by omega)] at hr2
      exact hbase j (by omega) r hr2
  | afterCreate i =>
    have hbase : ∀ j, i ≤ j → ∀ r, sess.records.get? j = some r →
        r.status = "pending" := hinv
    by_cases hc : orc.createOk i
    · simp only [step1]
      rw [if_pos hc]
      by_cases hd : cfg.delay ≠ 0 ∧ i < sess.records.length - 1
      · rw [if_pos hd]
        refine fun j hj r hr => ?_
        have hr2 : (setStatus1 sess.records i "completed").get? j = some r := hr
        rw [get?_setStatus1_ne sess.records i j _ (by omega)] at hr2
        exact hbase j (by omega) r hr2
      · rw [if_neg hd]
        refine fun j hj r hr => ?_
        have hr2 : (setStatus1 sess.records i "completed").get? j = some r := hr
        rw [get?_setStatus1_ne sess.records i j _ (by omega)] at hr2
        exact hbase j (by omega) r hr2
    · simp only [step1]
      rw [if_neg hc]
      by_cases hd : cfg.delay ≠ 0 ∧ i < sess.records.length - 1
      · rw [if_pos hd]
        refine fun j hj r hr => ?_
        have hr2 : (setStatusErr1 sess.records i "error"
            "Error creando incidente").get? j = some r := hr
        rw [get?_setStatusErr1_ne sess.records i j _ _ (by omega)] at hr2
        exact hbase j (by omega) r hr2
      · rw [if_neg hd]
        refine fun j hj r hr => ?_
        have hr2 : (setStatusErr1 sess.records i "error"
            "Error creando incidente").get? j = some r := hr
        rw [get?_setStatusErr1_ne sess.records i j _ _ (by omega)] at hr2
        exact hbase j (by omega) r hr2
  | afterDelay i =>
    have hbase : ∀ j, i + 1 ≤ j → ∀ r, sess.records.get? j = some r →
        r.status = "pending" := hinv
    exact fun j hj r hr => hbase j hj r hr
  | cleanup => trivial
  | finalizeRun => trivial
  | done => trivial

/-- Under the run invariant, one variant 1 segment changes a record's
status only from `pending` directly to a terminal value (`completed`,
or `error` — this variant's failed value); otherwise the status is left
untouched. -/
theorem step1_status_lifecycle (cfg : Config1) (orc : Oracle1) (s : State1)
    (hinv : Inv1 s) (j : Nat) (r r' : Rec1)
    (hr : s.sess.records.get? j = some r)
    (hr' : (step1 cfg orc s).sess.records.get? j = some r') :
    r'.status = r.status ∨
      (r.status = "pending" ∧
        (r'.status = "completed" ∨ r'.status = "error")) := by
  obtain ⟨pc, sess, cc, bo⟩ := s
  have hrj : sess.records.get? j = some r := hr
  cases pc with
  | start =>
    left
    by_cases hl : orc.loginOk
    · simp only [step1] at hr'
      rw [if_pos hl] at hr'
      have hr2 : sess.records.get? j = some r' := hr'
      rw [hrj] at hr2
      rw [Option.some.inj hr2]
    · simp only [step1] at hr'
      rw [if_neg hl] at hr'
      have hr2 : sess.records.get? j = some r' := hr'
      rw [hrj] at hr2
      rw [Option.some.inj hr2]
  | loopHead i =>
    left
    by_cases hi : i < sess.records.length
    · simp only [step1] at hr'
      rw [if_pos hi] at hr'
      have hr2 : sess.records.get? j = some r' := hr'
      rw [hrj] at hr2
      rw [Option.some.inj hr2]
    · simp only [step1] at hr'
      rw [if_neg hi] at hr'
      have hr2 : sess.records.get? j = some r' := hr'
      rw [hrj] at hr2
      rw [Option.some.inj hr2]
  | afterSearch i =>
    have hbase : ∀ j, i ≤ j → ∀ x, sess.records.get? j = some x →
        x.status = "pending" := hinv
    by_cases hs : orc.searchOk i
    · left
      simp only [step1] at hr'
      rw [if_pos hs] at hr'
      have hr2 : sess.records.get? j = some r' := hr'
      rw [hrj] at hr2
      rw [Option.some.inj hr2]
    · simp only [step1] at hr'
      rw [if_neg hs] at hr'
      have hr2 : (setStatusErr1 sess.records i "error"
          "No se pudo encontrar el ATM").get? j = some r' := hr'
      by_cases hij : i = j
      · subst hij
        rw [get?_setStatusErr1_eq sess.records i _ _ r hrj] at hr2
        right
        refine ⟨hbase i (le_refl i) r hrj, Or.inr ?_⟩
        rw [← Option.some.inj hr2]
      · left
        rw [get?_setStatusErr1_ne sess.records i j _ _ hij] at hr2
        rw [hrj] at hr2
        rw [Option.some.inj hr2]
  | afterCreate i =>
    have hbase : ∀ j, i ≤ j → ∀ x, sess.records.get? j = some x →
        x.status = "pending" := hinv
    simp only [step1] at hr'
    by_cases hc : orc.createOk i
    · rw [if_pos hc] at hr'
      by_cases hd : cfg.delay ≠ 0 ∧ i < sess.records.length - 1
      · rw [if_pos hd] at hr'
        have hr2 : (setStatus1 sess.records i "completed").get? j =
            some r' := hr'
        by_cases hij : i = j
        · subst hij
          rw [get?_setStatus1_eq sess.records i _ r hrj] at hr2
          right
          refine ⟨hbase i (le_refl i) r hrj, Or.inl ?_⟩
          rw [← Option.some.inj hr2]
        · left
          rw [get?_setStatus1_ne sess.records i j _ hij] at hr2
          rw [hrj] at hr2
          rw [Option.some.inj hr2]
      · rw [if_neg hd] at hr'
        have hr2 : (setStatus1 sess.records i "completed").get? j =
            some r' := hr'
        by_cases hij : i = j
        · subst hij
          rw [get?_setStatus1_eq sess.records i _ r hrj] at hr2
          right
          refine ⟨hbase i (le_refl i) r hrj, Or.inl ?_⟩
          rw [← Option.some.inj hr2]
        · left
          rw [get?_setStatus1_ne sess.records i j _ hij] at hr2
          rw [hrj] at hr2
          rw [Option.some.inj hr2]
    · rw [if_neg hc] at hr'
      by_cases hd : cfg.delay ≠ 0 ∧ i < sess.records.length - 1
      · rw [if_pos hd] at hr'
        have hr2 : (setStatusErr1 sess.records i "error"
            "Error creando incidente").get? j = some r' := hr'
        by_cases hij : i = j
        · subst hij
          rw [get?_setStatusErr1_eq sess.records i _ _ r hrj] at hr2
          right
          refine ⟨hbase i (le_refl i) r hrj, Or.inr ?_⟩
          rw [← Option.some.inj hr2]
        · left
          rw [get?_setStatusErr1_ne sess.records i j _ _ hij] at hr2
          rw [hrj] at hr2
          rw [Option.some.inj hr2]
      · rw [if_neg hd] at hr'
        have hr2 : (setStatusErr1 sess.records i "error"
            "Error creando incidente").get? j = some r' := hr'
        by_cases hij : i = j
        · subst hij
          rw [get?_setStatusErr1_eq sess.records i _ _ r hrj] at hr2
          right
          refine ⟨hbase i (le_refl i) r hrj, Or.inr ?_⟩
          rw [← Option.some.inj hr2]
        · left
          rw [get?_setStatusErr1_ne sess.records i j _ _ hij] at hr2
          rw [hrj] at hr2
          rw [Option.some.inj hr2]
  | afterDelay i =>
    left
    have hr2 : sess.records.get? j = some r' := hr'
    rw [hrj] at hr2
    rw [Option.some.inj hr2]
  | cleanup =>
    left
    cases bo with
    | false =>
      have hr2 : sess.records.get? j = some r' := hr'
      rw [hrj] at hr2
      rw [Option.some.inj hr2]
    | true =>
      have hr2 : sess.records.get? j = some r' := hr'
      rw [hrj] at hr2
      rw [Option.some.inj hr2]
  | finalizeRun =>
    left
    have hr2 : sess.records.get? j = some r' := hr'
    rw [hrj] at hr2
    rw [Option.some.inj hr2]
  | done =>
    left
    have hr2 : sess.records.get? j = some r' := hr'
    rw [hrj] at hr2
    rw [Option.some.inj hr2]

/-- Predicate: no record of the list carries the status value
`processing` (a value the variant 1 code never writes). -/
def NoProc1 (recs : List Rec1) : Prop :=
  ∀ r ∈ recs, r.status ≠ "processing"

/-- Predicate: no record of the list carries the status value
`processing` (a value the variant 2 code never writes). -/
def NoProc2 (recs : List Rec2) : Prop :=
  ∀ r ∈ recs, r.status ≠ "processing"

/-- Membership after `setStatusErr1`: an element is an old element or
carries the written status. -/
theorem mem_setStatusErr1 {x : Rec1} (recs : List Rec1) (i : Nat)
    (st err : String) (hx : x ∈ setStatusErr1 recs i st err) :
    x ∈ recs ∨ x.status = st := by
  rw [setStatusErr1] at hx
  cases h : recs.get? i with
  | none => rw [h] at hx; exact Or.inl hx
  | some r =>
    rw [h] at hx
    rcases List.mem_or_eq_of_mem_set hx with h2 | h2
    · exact Or.inl h2
    · right; rw [h2]
  
/-- Membership after `setStatus1`: an element is an old element or
carries the written status. -/
theorem mem_setStatus1 {x : Rec1} (recs : List Rec1) (i : Nat)
    (st : String) (hx : x ∈ setStatus1 recs i st) :
    x ∈ recs ∨ x.status = st := by
  rw [setStatus1] at hx
  cases h : recs.get? i with
  | none => rw [h] at hx; exact Or.inl hx
  | some r =>
    rw [h] at hx
    rcases List.mem_or_eq_of_mem_set hx with h2 | h2
    · exact Or.inl h2
    · right; rw [h2]

/-- Membership after `setStatus2`: an element is an old element or
carries the written status. -/
theorem mem_setStatus2 {x : Rec2} (recs : List Rec2) (i : Nat)
    (st res : String) (hx : x ∈ setStatus2 recs i st res) :
    x ∈ recs ∨ x.status = st := by
  rw [setStatus2] at hx
  cases h : recs.get? i with
  | none => rw [h] at hx; exact Or.inl hx
  | some r =>
    rw [h] at hx
    rcases List.mem_or_eq_of_mem_set hx with h2 | h2
    · exact Or.inl h2
    · right; rw [h2]

/-- A variant 1 segment never writes a `processing` status. -/
theorem step1_noProc (cfg : Config1) (orc : Oracle1) (s : State1)
    (h : NoProc1 s.sess.records) :
    NoProc1 (step1 cfg orc s).sess.records := by
  obtain ⟨pc, sess, cc, bo⟩ := s
  have hbase : ∀ r ∈ sess.records, r.status ≠ "processing" := h
  cases pc with
  | start =>
    by_cases hl : orc.loginOk
    · simp only [step1]; rw [if_pos hl]; exact fun r hr => hbase r hr
    · simp only [step1]; rw [if_neg hl]; exact fun r hr => hbase r hr
  | loopHead i =>
    by_cases hi : i < sess.records.length
    · simp only [step1]; rw [if_pos hi]; exact fun r hr => hbase r hr
    · simp only [step1]; rw [if_neg hi]; exact fun r hr => hbase r hr
  | afterSearch i =>
    by_cases hs : orc.searchOk i
    · simp only [step1]; rw [if_pos hs]; exact fun r hr => hbase r hr
    · simp only [step1]; rw [if_neg hs]
      intro r hr
      have hr2 : r ∈ setStatusErr1 sess.records i "error"
          "No se pudo encontrar el ATM" := hr
      rcases mem_setStatusErr1 sess.records i _ _ hr2 with h2 | h2
      · exact hbase r h2
      · rw [h2]; decide
  | afterCreate i =>
    simp only [step1]
    by_cases hc : orc.createOk i
    · rw [if_pos hc]
      by_cases hd : cfg.delay ≠ 0 ∧ i < sess.records.length - 1
      · rw [if_pos hd]
        intro r hr
        have hr2 : r ∈ setStatus1 sess.records i "completed" := hr
        rcases mem_setStatus1 sess.records i _ hr2 with h2 | h2
        · exact hbase r h2
        · rw [h2]; decide
      · rw [if_neg hd]
        intro r hr
        have hr2 : r ∈ setStatus1 sess.records i "completed" := hr
        rcases mem_setStatus1 sess.records i _ hr2 with h2 | h2
        · exact hbase r h2
        · rw [h2]; decide
    · rw [if_neg hc]
      by_cases hd : cfg.delay ≠ 0 ∧ i < sess.records.length - 1
      · rw [if_pos hd]
        intro r hr
        have hr2 : r ∈ setStatusErr1 sess.records i "error"
            "Error creando incidente" := hr
        rcases mem_setStatusErr1 sess.records i _ _ hr2 with h2 | h2
        · exact hbase r h2
        · rw [h2]; decide
      · rw [if_neg hd]
        intro r hr
        have hr2 : r ∈ setStatusErr1 sess.records i "error"
            "Error creando incidente" := hr
        rcases mem_setStatusErr1 sess.records i _ _ hr2 with h2 | h2
        · exact hbase r h2
        · rw [h2]; decide
  | afterDelay i => exact fun r hr => hbase r hr
  | cleanup =>
    cases bo with
    | false => exact fun r hr => hbase r hr
    | true => exact fun r hr => hbase r hr
  | finalizeRun => exact fun r hr => hbase r hr
  | done => exact fun r hr => hbase r hr

/-- Least record index the variant 2 runner may still write a status to. -/
def writeFrontier2 : PC2 → Option Nat
  | PC2.start => some 0
  | PC2.loopHead i => some i
  | PC2.afterFind i => some i
  | PC2.afterCreate i => some i
  | PC2.done => none

/-- Run invariant of the variant 2 runner: every record at or beyond
the write frontier is still pending. -/
def Inv2 (s : State2) : Prop :=
  match writeFrontier2 s.pc with
  | none => True
  | some i =>
    ∀ j, i ≤ j → ∀ r, s.records.get? j = some r → r.status = "pending"

/-- Writing a terminal status at one index leaves other indices of the
variant 2 record array unchanged. -/
theorem get?_setStatus2_ne (recs : List Rec2) (i j : Nat) (st res : String)
    (h : i ≠ j) :
    (setStatus2 recs i st res).get? j = recs.get? j := by
  rw [setStatus2]
  cases recs.get? i with
  | none => rfl
  | some r => exact List.get?_set_ne _ _ h

/-- Reading back the index `setStatus2` wrote. -/
theorem get?_setStatus2_eq (recs : List Rec2) (i : Nat) (st res : String)
    (r : Rec2) (hr : recs.get? i = some r) :
    (setStatus2 recs i st res).get? i =
      some { r with status := st, result := some res } := by
  rw [setStatus2, hr]
  exact List.get?_set_eq_of_lt _ (List.get?_eq_some.mp hr).fst

/-- Every variant 2 segment preserves the pending-beyond-frontier run
invariant. -/
theorem step2_preserves_Inv2 (orc : Oracle2) (s : State2)
    (hinv : Inv2 s) : Inv2 (step2 orc s) := by
  obtain ⟨pc, sess, recs⟩ := s
  cases pc with
  | start =>
    have hbase : ∀ j, 0 ≤ j → ∀ r, recs.get? j = some r →
        r.status = "pending" := hinv
    exact fun j hj r hr => hbase j hj r hr
  | loopHead i =>
    have hbase : ∀ j, i ≤ j → ∀ r, recs.get? j = some r →
        r.status = "pending" := hinv
    by_cases hc : i < recs.length ∧ sess.isProcessing = true
    · simp only [step2]
      rw [if_pos hc]
      exact fun j hj r hr => hbase j hj r hr
    · simp only [step2]
      rw [if_neg hc]
      trivial
  | afterFind i =>
    have hbase : ∀ j, i ≤ j → ∀ r, recs.get? j = some r →
        r.status = "pending" := hinv
    exact fun j hj r hr => hbase j hj r hr
  | afterCreate i =>
    have hbase : ∀ j, i ≤ j → ∀ r, recs.get? j = some r →
        r.status = "pending" := hinv
    by_cases ho : orc.success i
    · simp only [step2]
      rw [if_pos ho]
      refine fun j hj r hr => ?_
      have hr2 : (setStatus2 recs i "completed"
          "Evento creado exitosamente").get? j = some r := hr
      rw [get?_setStatus2_ne recs i j _ _ (by omega)] at hr2
      exact hbase j (by omega) r hr2
    · simp only [step2]
      rw [if_neg ho]
      refine fun j hj r hr => ?_
      have hr2 : (setStatus2 recs i "failed" "Error simulado").get? j =
          some r := hr
      rw [get?_setStatus2_ne recs i j _ _ (by omega)] at hr2
      exact hbase j (by omega) r hr2
  | done => trivial

/-- Under the run invariant, one variant 2 segment changes a record's
status only from `pending` directly to `completed` or `failed`;
otherwise the status is left untouched. -/
theorem step2_status_lifecycle (orc : Oracle2) (s : State2)
    (hinv : Inv2 s) (j : Nat) (r r' : Rec2)
    (hr : s.records.get? j = some r)
    (hr' : (step2 orc s).records.get? j = some r') :
    r'.status = r.status ∨
      (r.status = "pending" ∧
        (r'.status = "completed" ∨ r'.status = "failed")) := by
  obtain ⟨pc, sess, recs⟩ := s
  have hrj : recs.get? j = some r := hr
  cases pc with
  | start =>
    left
    have hr2 : recs.get? j = some r' := hr'
    rw [hrj] at hr2
    rw [Option.some.inj hr2]
  | loopHead i =>
    left
    by_cases hc : i < recs.length ∧ sess.isProcessing = true
    · simp only [step2] at hr'
      rw [if_pos hc] at hr'
      have hr2 : recs.get? j = some r' := hr'
      rw [hrj] at hr2
      rw [Option.some.inj hr2]
    · simp only [step2] at hr'
      rw [if_neg hc] at hr'
      have hr2 : recs.get? j = some r' := hr'
      rw [hrj] at hr2
      rw [Option.some.inj hr2]
  | afterFind i =>
    left
    have hr2 : recs.get? j = some r' := hr'
    rw [hrj] at hr2
    rw [Option.some.inj hr2]
  | afterCreate i =>
    have hbase : ∀ j, i ≤ j → ∀ x, recs.get? j = some x →
        x.status = "pending" := hinv
    simp only [step2] at hr'
    by_cases ho : orc.success i
    · rw [if_pos ho] at hr'
      have hr2 : (setStatus2 recs i "completed"
          "Evento creado exitosamente").get? j = some r' := hr'
      by_cases hij : i = j
      · subst hij
        rw [get?_setStatus2_eq recs i _ _ r hrj] at hr2
        right
        refine ⟨hbase i (le_refl i) r hrj, Or.inl ?_⟩
        rw [← Option.some.inj hr2]
      · left
        rw [get?_setStatus2_ne recs i j _ _ hij] at hr2
        rw [hrj] at hr2
        rw [Option.some.inj hr2]
    · rw [if_neg ho] at hr'
      have hr2 : (setStatus2 recs i "failed" "Error simulado").get? j =
          some r' := hr'
      by_cases hij : i = j
      · subst hij
        rw [get?_setStatus2_eq recs i _ _ r hrj] at hr2
        right
        refine ⟨hbase i (le_refl i) r hrj, Or.inr ?_⟩
        rw [← Option.some.inj hr2]
      · left
        rw [get?_setStatus2_ne recs i j _ _ hij] at hr2
        rw [hrj] at hr2
        rw [Option.some.inj hr2]
  | done =>
    left
    have hr2 : recs.get? j = some r' := hr'
    rw [hrj] at hr2
    rw [Option.some.inj hr2]

/-- A variant 2 segment never writes a `processing` status. -/
theorem step2_noProc (orc : Oracle2) (s : State2)
    (h : NoProc2 s.records) : NoProc2 (step2 orc s).records := by
  obtain ⟨pc, sess, recs⟩ := s
  have hbase : ∀ r ∈ recs, r.status ≠ "processing" := h
  cases pc with
  | start => exact fun r hr => hbase r hr
  | loopHead i =>
    by_cases hc : i < recs.length ∧ sess.isProcessing = true
    · simp only [step2]; rw [if_pos hc]; exact fun r hr => hbase r hr
    · simp only [step2]; rw [if_neg hc]; exact fun r hr => hbase r hr
  | afterFind i => exact fun r hr => hbase r hr
  | afterCreate i =>
    simp only [step2]
    by_cases ho : orc.success i
    · rw [if_pos ho]
      intro r hr
      have hr2 : r ∈ setStatus2 recs i "completed"
          "Evento creado exitosamente" := hr
      rcases mem_setStatus2 recs i _ _ hr2 with h2 | h2
      · exact hbase r h2
      · rw [h2]; decide
    · rw [if_neg ho]
      intro r hr
      have hr2 : r ∈ setStatus2 recs i "failed" "Error simulado" := hr
      rcases mem_setStatus2 recs i _ _ hr2 with h2 | h2
      · exact hbase r h2
      · rw [h2]; decide
  | done => exact fun r hr => hbase r hr

/-- C5 amended: record statuses move directly from `pending` to a
terminal value — `completed`, or the variant's failed value (`error` in
the puppeteer variant, `failed` in the simulated one) — with no
intermediate `processing` value ever written, and never change again
once terminal: under the all-pending-beyond-the-frontier run invariant
(which every segment preserves), each segment either leaves a record's
status untouched or moves it from `pending` to a terminal value; and no
run ever produces a record with `status = "processing"` — the record
being worked on is designated by `currentRecord` alone while its status
remains `pending`. -/
theorem c5_amended_status_lifecycle :
    (∀ (cfg : Config1) (orc : Oracle1) (s : State1), Inv1 s →
        Inv1 (step1 cfg orc s)) ∧
    (∀ (cfg : Config1) (orc : Oracle1) (s : State1), Inv1 s →
        ∀ (j : Nat) (r r' : Rec1), s.sess.records.get? j = some r →
          (step1 cfg orc s).sess.records.get? j = some r' →
          r'.status = r.status ∨
            (r.status = "pending" ∧
              (r'.status = "completed" ∨ r'.status = "error"))) ∧
    (∀ (cfg : Config1) (orc : Oracle1) (s : State1) (n : Nat),
        NoProc1 s.sess.records →
        NoProc1 (((step1 cfg orc)^[n] s).sess.records)) ∧
    (∀ (orc : Oracle2) (s : State2), Inv2 s → Inv2 (step2 orc s)) ∧
    (∀ (orc : Oracle2) (s : State2), Inv2 s →
        ∀ (j : Nat) (r r' : Rec2), s.records.get? j = some r →
          (step2 orc s).records.get? j = some r' →
          r'.status = r.status ∨
            (r.status = "pending" ∧
              (r'.status = "completed" ∨ r'.status = "failed"))) ∧
    (∀ (orc : Oracle2) (s : State2) (n : Nat), NoProc2 s.records →
        NoProc2 (((step2 orc)^[n] s).records)) := by
  refine ⟨step1_preserves_Inv1, ?_, ?_, step2_preserves_Inv2, ?_, ?_⟩
  · intro cfg orc s hinv j r r' hr hr'
    exact step1_status_lifecycle cfg orc s hinv j r r' hr hr'
  · intro cfg orc s n
    induction n generalizing s with
    | zero => intro h; simpa using h
    | succ n ihn =>
      intro h
      rw [Function.iterate_succ_apply]
      exact ihn (step1 cfg orc s) (step1_noProc cfg orc s h)
  · intro orc s hinv j r r' hr hr'
    exact step2_status_lifecycle orc s hinv j r r' hr hr'
  · intro orc s n
    induction n generalizing s with
    | zero => intro h; simpa using h
    | succ n ihn =>
      intro h
      rw [Function.iterate_succ_apply]
      exact ihn (step2 orc s) (step2_noProc orc s h)

/-! Witness instantiations at concrete inputs. -/

/-- Idle variant 1 session with one record loaded. -/
def sessIdle : Sess1 := ⟨false, none, 1, 0, [], [rec1A]⟩

/-- Busy variant 1 session. -/
def sessBusy : Sess1 := ⟨true, none, 1, 0, [], [rec1A]⟩

/-- Idle variant 2 session. -/
def sess2Idle : Sess2 := ⟨false, none, 0, 0, []⟩

/-- Busy variant 2 session. -/
def sess2Busy : Sess2 := ⟨true, none, 0, 0, []⟩

/-- Variant 1 run state parked at a loop head after a stop lowered the
flag mid-batch, browser still open. -/
def stoppedV1LH : State1 :=
  ⟨PC1.loopHead 1, ⟨false, some 0, 2, 0, [], [rec1A, rec1B]⟩, 0, true⟩

/-- Variant 2 run state parked at a loop head after a stop lowered the
flag mid-batch. -/
def stoppedV2LH : State2 :=
  ⟨PC2.loopHead 1, ⟨false, some 0, 0, 2, []⟩, [rec2A, rec2B]⟩

/-- Witness for `c3_single_active_batch` at concrete sessions and
credentials. -/
theorem c3_single_active_batch_witness :
    ((startProcessingV1 (some ⟨"user", "pass"⟩) sessIdle).fst =
        ApiResult.ok "Procesamiento iniciado" ∧
      (startProcessingV1 (some ⟨"user", "pass"⟩) sessIdle).snd.snd = true ∧
      (startProcessingV1 (some ⟨"user", "pass"⟩)
          sessIdle).snd.fst.isProcessing = true ∧
      (∀ creds2 : Option Credentials,
        startProcessingV1 creds2
            (startProcessingV1 (some ⟨"user", "pass"⟩) sessIdle).snd.fst =
          (ApiResult.err 400 "Ya hay un procesamiento en curso",
           (startProcessingV1 (some ⟨"user", "pass"⟩) sessIdle).snd.fst,
           false))) ∧
    (startProcessingV1 none sessBusy =
      (ApiResult.err 400 "Ya hay un procesamiento en curso",
       sessBusy, false)) ∧
    ((processHandlerV2 "user" "pass" [rec2A] sess2Idle).fst =
        ApiResult.ok "Procesamiento iniciado" ∧
      (processHandlerV2 "user" "pass" [rec2A] sess2Idle).snd.snd = true ∧
      (∀ (u2 p2 : String) (records2 : List Rec2),
        processHandlerV2 u2 p2 records2
            (processHandlerV2 "user" "pass" [rec2A] sess2Idle).snd.fst =
          (ApiResult.err 400 "Ya hay un procesamiento en curso",
           (processHandlerV2 "user" "pass" [rec2A] sess2Idle).snd.fst,
           false))) ∧
    (processHandlerV2 "" "" [] sess2Busy =
      (ApiResult.err 400 "Ya hay un procesamiento en curso",
       sess2Busy, false)) :=
  ⟨c3_single_active_batch.1 (some ⟨"user", "pass"⟩) sessIdle rfl (by decide)
      (by decide),
   c3_single_active_batch.2.1 none sessBusy rfl,
   c3_single_active_batch.2.2.1 "user" "pass" [rec2A] sess2Idle rfl
      (by decide) (by decide),
   c3_single_active_batch.2.2.2 "" "" [] sess2Busy rfl⟩

/-- Witness for `c4_cleanup_on_every_exit` at concrete run states,
including loop-head states of already-stopped batches. -/
theorem c4_cleanup_on_every_exit_witness :
    (∃ n, ((step1 cfgNoDelay orcAllOk)^[n] initV1one).pc = PC1.done ∧
      ((step1 cfgNoDelay orcAllOk)^[n] initV1one).closeCalls =
        initV1one.closeCalls + 1 ∧
      ((step1 cfgNoDelay orcAllOk)^[n] initV1one).sess.isProcessing = false ∧
      ((step1 cfgNoDelay orcAllOk)^[n] initV1one).sess.currentRecord = none ∧
      ((step1 cfgNoDelay orcAllOk)^[n] initV1one).browserOpen = false) ∧
    (∃ n, ((step1 cfgNoDelay orcAllOk)^[n] stoppedV1LH).pc = PC1.done ∧
      ((step1 cfgNoDelay orcAllOk)^[n] stoppedV1LH).closeCalls =
        stoppedV1LH.closeCalls +
          (if stoppedV1LH.browserOpen then 1 else 0) ∧
      ((step1 cfgNoDelay orcAllOk)^[n] stoppedV1LH).sess.isProcessing =
        false ∧
      ((step1 cfgNoDelay orcAllOk)^[n] stoppedV1LH).sess.currentRecord =
        none) ∧
    (∃ n, ((step2 orc2AllOk)^[n] initV2two).pc = PC2.done ∧
      ((step2 orc2AllOk)^[n] initV2two).sess.isProcessing = false ∧
      ((step2 orc2AllOk)^[n] initV2two).sess.currentRecord = none) ∧
    (∃ n, ((step2 orc2AllOk)^[n] stoppedV2LH).pc = PC2.done ∧
      ((step2 orc2AllOk)^[n] stoppedV2LH).sess.isProcessing = false ∧
      ((step2 orc2AllOk)^[n] stoppedV2LH).sess.currentRecord = none) :=
  ⟨c4_cleanup_on_every_exit.1 cfgNoDelay orcAllOk initV1one rfl,
   c4_cleanup_on_every_exit.2.1 cfgNoDelay orcAllOk stoppedV1LH 1 rfl,
   c4_cleanup_on_every_exit.2.2.1 orc2AllOk initV2two rfl,
   c4_cleanup_on_every_exit.2.2.2 orc2AllOk stoppedV2LH 1 rfl⟩

/-- Variant 1 run state parked inside the search of record 1 under the
all-searches-fail driver. -/
def sA : State1 := (step1 cfgNoDelay orcSearchFail)^[2] initV1one

/-- Variant 2 run state about to resolve the simulated outcome of
record 1. -/
def sB : State2 := (step2 orc2AllOk)^[3] initV2two

/-- The record the failed search writes. -/
def recErrA : Rec1 :=
  ⟨1, "VANDG", "ATM1", "", "", "", "error",
   some "No se pudo encontrar el ATM"⟩

/-- The record the successful simulated creation writes. -/
def recDoneA : Rec2 :=
  ⟨1, "", "N1", "", "", "", "completed", some "Evento creado exitosamente"⟩

/-- Witness for `c5_amended_status_lifecycle` at concrete run states. -/
theorem c5_amended_status_lifecycle_witness :
    Inv1 (step1 cfgNoDelay orcAllOk initV1one) ∧
    (recErrA.status = rec1A.status ∨
      (rec1A.status = "pending" ∧
        (recErrA.status = "completed" ∨ recErrA.status = "error"))) ∧
    NoProc1 (((step1 cfgNoDelay orcAllOk)^[9] initV1one).sess.records) ∧
    Inv2 (step2 orc2AllOk initV2two) ∧
    (recDoneA.status = rec2A.status ∨
      (rec2A.status = "pending" ∧
        (recDoneA.status = "completed" ∨ recDoneA.status = "failed"))) ∧
    NoProc2 (((step2 orc2AllOk)^[8] initV2two).records) := by
  have hInvInit : Inv1 initV1one := by
    intro j hj r hr
    rw [show initV1one.sess.records = [rec1A] from rfl] at hr
    match j, hr with
    | 0, hr =>
      injection hr with h
      rw [← h]
      rfl
    | n + 1, hr => simp at hr
  have hInvA : Inv1 sA := by
    intro j hj r hr
    rw [show sA.sess.records = [rec1A] from rfl] at hr
    match j, hr with
    | 0, hr =>
      injection hr with h
      rw [← h]
      rfl
    | n + 1, hr => simp at hr
  have hNoProcInit : NoProc1 initV1one.sess.records := by
    intro r hr
    rw [show initV1one.sess.records = [rec1A] from rfl,
      List.mem_singleton] at hr
    rw [hr]
    decide
  have hInv2Init : Inv2 initV2two := by
    intro j hj r hr
    rw [show initV2two.records = [rec2A, rec2B] from rfl] at hr
    match j, hr with
    | 0, hr =>
      injection hr with h
      rw [← h]
      rfl
    | 1, hr =>
      injection hr with h
      rw [← h]
      rfl
    | n + 2, hr => simp at hr
  have hInvB : Inv2 sB := by
    intro j hj r hr
    rw [show sB.records = [rec2A, rec2B] from rfl] at hr
    match j, hr with
    | 0, hr =>
      injection hr with h
      rw [← h]
      rfl
    | 1, hr =>
      injection hr with h
      rw [← h]
      rfl
    | n + 2, hr => simp at hr
  have hNoProc2Init : NoProc2 initV2two.records := by
    intro r hr
    rw [show initV2two.records = [rec2A, rec2B] from rfl] at hr
    rcases List.mem_cons.mp hr with h | h
    · rw [h]; decide
    · rw [List.mem_singleton] at h
      rw [h]; decide
  exact
    ⟨c5_amended_status_lifecycle.1 cfgNoDelay orcAllOk initV1one hInvInit,
     c5_amended_status_lifecycle.2.1 cfgNoDelay orcSearchFail sA hInvA 0
       rec1A recErrA (by decide) (by decide),
     c5_amended_status_lifecycle.2.2.1 cfgNoDelay orcAllOk initV1one 9
       hNoProcInit,
     c5_amended_status_lifecycle.2.2.2.1 orc2AllOk initV2two hInv2Init,
     c5_amended_status_lifecycle.2.2.2.2.1 orc2AllOk sB hInvB 0 rec2A
       recDoneA (by decide) (by decide),
     c5_amended_status_lifecycle.2.2.2.2.2 orc2AllOk initV2two 8
       hNoProc2Init⟩

/-- Witness for `c6_field_failures_nonfatal` on a page resolving no
selector at all. -/
theorem c6_field_failures_nonfatal_witness :
    ((createIncident (fun _ => false) rec1A).fst =
      ((tryInOrder createButtonSelectors (fun _ => false)).fst.isSome &&
       (tryInOrder saveSelectors (fun _ => false)).fst.isSome)) ∧
    ((fillIncidentForm (fun _ => false) rec1A).fst.map Prod.fst =
      (formFields rec1A).map Prod.fst) ∧
    LogEntry.mk (fieldWarning "Status Code") "warning" ∈
      (fillIncidentForm (fun _ => false) rec1A).snd :=
  ⟨c6_field_failures_nonfatal.1 (fun _ => false) rec1A,
   c6_field_failures_nonfatal.2.1 (fun _ => false) rec1A,
   c6_field_failures_nonfatal.2.2 (fun _ => false) rec1A "Status Code"
     (by decide)⟩

/-- A one-row variant 1 sheet and its surviving record. -/
def rowX : Row1 := ⟨none, none, some "ATM1", none, none, none⟩

/-- The record intake builds from `rowX`. -/
def recX : Rec1 := ⟨1, "VANDG", "ATM1", "", "", "", "pending", none⟩

/-- A one-row variant 2 sheet and its surviving record. -/
def rowY : Row2 := ⟨some "a", some "N1", none, none, none⟩

/-- The record intake builds from `rowY`. -/
def recY : Rec2 := ⟨1, "a", "N1", "", "", "", "pending", none⟩

/-- Witness for `c8_amended_upload_intake` at a concrete sheet. -/
theorem c8_amended_upload_intake_witness :
    (recX.idNCR ≠ "") ∧
    (∃ row, [rowX].get? (recX.id - 1) = some row ∧
      recX = recOfRow (recX.id - 1) row) ∧
    (recY.ncrId ≠ "" ∧ jsTrim recY.ncrId ≠ "") :=
  ⟨c8_amended_upload_intake.1 [rowX] recX (by decide),
   c8_amended_upload_intake.2.1 [rowX] recX (by decide),
   c8_amended_upload_intake.2.2.2.1 [rowY] recY (by decide)⟩
